import Mathlib

/-!
Verification of the `ReactRunner` streaming agent-execution loop
(`src/utu/runner/react_runner.py`).

The development is a shallow embedding of the runner's control flow:

* conversation items, run input, and model responses are abstract atoms;
* the turn executor, the model stream, cancellation, and the session
  store are oracles supplied in a configuration record, so theorems
  quantify over every environment behaviour;
* every state-changing action of the loop (event enqueued, session
  write, span/trace action, completion-flag write, model-call turn)
  is appended to a chronological effect log, so temporal claims become
  statements about the order and multiplicity of log entries;
* the cooperative-concurrency model of asyncio is captured by an epoch
  counter: the cancellation flag is an oracle over epochs and the
  counter advances exactly at the loop's `await` points, so the flag
  can only be observed to change across a suspension point.

Collaborator pieces that live in the external `openai-agents` SDK
(sentinel value, step-result record, session interface) are modelled at
the interface boundary; the control flow itself is translated line by
line from `ReactRunner`.
-/

namespace ReactRunnerModel

/-- An agent is identified by an abstract id (the loop never inspects
agents beyond swapping which one is current). -/
abbrev AgentId := Nat

/-- A conversation item: either the item created from a plain-string user
input or an abstract generated run item. `to_input_item` conversion is
the identity at this level of abstraction. -/
inductive TItem where
  | userMsg (s : String)
  | runItem (n : Nat)
deriving DecidableEq

/-- Run input as accepted by `run_streamed`: a plain string or a list of
input items. -/
inductive InputVal where
  | str (s : String)
  | items (l : List TItem)
deriving DecidableEq

/-- `ItemHelpers.input_to_new_input_list` (external SDK helper, modelled
at the boundary): a string becomes a single-item list, a list is taken
as is. -/
def inputToNewInputList : InputVal → List TItem
  | .str s => [.userMsg s]
  | .items l => l

/-- Exception classes relevant to the loop.  `userError` is
`agents.exceptions.UserError`, `modelBehavior` is `ModelBehaviorError`,
`otherExc` is any other `Exception`, and `baseOnly` is a
`BaseException` that is not an `Exception` (e.g. task cancellation),
which the loop's `except Exception` clause does not catch. -/
inductive ExnKind where
  | userError
  | modelBehavior
  | otherExc
  | baseOnly
deriving DecidableEq

/-- Whether Python's `except Exception:` catches this exception. -/
def isExceptionClass : ExnKind → Bool
  | .baseOnly => false
  | _ => true

/-- `ReactRunner._prepare_input_with_session` (react_runner.py lines
537-575): without a session the input passes through; with a session a
list input requires a merge callback (otherwise `UserError`); a string
input is appended to the history; a callback, when present, computes
the merge.  (The source's final `else` branch for a non-callable,
non-`None` callback is unrepresentable here because the callback is
typed.) -/
def prepareInputWithSession (input : InputVal) (session : Option (List TItem))
    (cb : Option (List TItem → List TItem → List TItem)) : Except ExnKind InputVal :=
  match session with
  | none => Except.ok input
  | some history =>
    match input, cb with
    | InputVal.items _, none => Except.error ExnKind.userError
    | _, _ =>
      let newInputList := inputToNewInputList input
      match cb with
      | none => Except.ok (InputVal.items (history ++ newInputList))
      | some f => Except.ok (InputVal.items (f history newInputList))

/- ### Handoff resolution (`ReactRunner._get_handoffs`, lines 498-514) -/

/-- The (possibly awaited) value produced by invoking a callable entry of
`agent.handoffs`: a `Handoff`, an `Agent`, or anything else. -/
inductive CallableResult (H A : Type) where
  | isHandoffR (h : H)
  | isAgentR (a : A)
  | otherR

/-- One element of `agent.handoffs` as classified by the source's
`isinstance`/`callable` chain: a `Handoff` descriptor, an `Agent`, a
callable (represented by the value its invocation yields after the
optional await), or a value that is none of those. -/
inductive HandoffEntry (H A : Type) where
  | handoffE (h : H)
  | agentE (a : A)
  | callableE (r : CallableResult H A)
  | notCallableE

/-- `ReactRunner._get_handoffs`: walk `agent.handoffs`, keep `Handoff`
entries, wrap `Agent` entries with the SDK `handoff` constructor `mk`,
invoke callables and keep/wrap their result when it is a `Handoff` or
`Agent`, and silently skip everything else.  The function is total: no
branch raises. -/
def getHandoffs {H A : Type} (mk : A → H) : List (HandoffEntry H A) → List H
  | [] => []
  | e :: rest =>
    match e with
    | .handoffE h => h :: getHandoffs mk rest
    | .agentE a => mk a :: getHandoffs mk rest
    | .callableE r =>
      match r with
      | .isHandoffR h => h :: getHandoffs mk rest
      | .isAgentR a => mk a :: getHandoffs mk rest
      | .otherR => getHandoffs mk rest
    | .notCallableE => getHandoffs mk rest

/-- Normalization of a single handoff entry: the well-formed entries map
to the `Handoff` descriptor the source appends, malformed entries map to
`none`. -/
def normalizeHandoffEntry {H A : Type} (mk : A → H) : HandoffEntry H A → Option H
  | .handoffE h => some h
  | .agentE a => some (mk a)
  | .callableE (.isHandoffR h) => some h
  | .callableE (.isAgentR a) => some (mk a)
  | .callableE .otherR => none
  | .notCallableE => none

/- ### Single-turn model streaming (`_run_single_turn_streamed`, lines 300-424) -/

/-- An event of the model's response stream: an incremental delta or the
terminal `ResponseCompletedEvent` carrying the aggregate response. -/
inductive ModelStreamEvent where
  | delta (d : Nat)
  | completed (resp : Nat)
deriving DecidableEq

/-- Whether a stream event is a `ResponseCompletedEvent`. -/
def isCompletedEvent : ModelStreamEvent → Bool
  | .completed _ => true
  | .delta _ => false

/-- The `final_response` accumulator of the `async for` loop (lines
358-392): starts as `None` and is overwritten by each
`ResponseCompletedEvent`. -/
def finalResponseOf (stream : List ModelStreamEvent) : Option Nat :=
  stream.foldl (fun acc e => match e with | .completed r => some r | .delta _ => acc) none

/-- Observable outcome of one execution of `_run_single_turn_streamed`
(restricted to the behaviour the claims are about): the raw events
re-emitted onto the caller queue, whether the on-LLM-end hooks ran,
whether tool execution was reached, and the result (final response id or
`ModelBehaviorError`). -/
structure SingleTurnObs where
  rawEmitted : List ModelStreamEvent
  llmEndCalled : Bool
  toolsExecuted : Bool
  result : Except ExnKind Nat

/-- `_run_single_turn_streamed`, lines 358-424: every stream event is
re-emitted; the on-LLM-end hooks run only when `final_response` is not
`None` (a `ModelResponse` defines no `__bool__`, so `not final_response`
is exactly `final_response is None`); with no completed response the
turn raises `ModelBehaviorError` before `_get_single_step_result_from_response`
is called; otherwise tools execute. -/
def runSingleTurnStreamed (stream : List ModelStreamEvent) : SingleTurnObs :=
  match finalResponseOf stream with
  | none =>
    { rawEmitted := stream
      llmEndCalled := false
      toolsExecuted := false
      result := Except.error ExnKind.modelBehavior }
  | some r =>
    { rawEmitted := stream
      llmEndCalled := true
      toolsExecuted := true
      result := Except.ok r }

/- ### The streaming loop (`_streaming_loop`, lines 155-298) -/

/-- One of `NextStepHandoff`, `NextStepFinalOutput`, `NextStepRunAgain`:
the next-step directive of a step result. -/
inductive NextStep where
  | handoff (newAgent : AgentId)
  | finalOutput (out : Nat)
  | runAgain
deriving DecidableEq

/-- The step result returned by the turn executor
(`agents._run_impl.SingleStepResult`, external SDK).  Only the fields
`_streaming_loop` reads are modelled, and they are kept independent:
in particular the relation between `generated_items` and
`new_step_items` is defined by the external SDK, not by this
repository's sources (see claim C9). -/
structure SingleStepResult where
  original_input : InputVal
  model_response : Nat
  new_step_items : List TItem
  generated_items : List TItem
  next_step : NextStep
deriving DecidableEq

/-- An event the turn executor enqueues while it runs: a wrapped raw
model-response event (line 372) or a run-item stream event (lines 423
and 456).  The turn executor never enqueues a sentinel. -/
inductive TurnEvent where
  | raw (e : Nat)
  | item (it : TItem)
deriving DecidableEq

/-- Outcome of one turn as seen from the loop: a step result together
with the queue events the turn emitted while running, or an exception
propagating out of the turn. -/
inductive TurnOut where
  | ok (emitted : List TurnEvent) (r : SingleStepResult)
  | throws (c : ExnKind)

/-- An entry of the caller-visible event queue. -/
inductive Event where
  | agentUpdated (a : AgentId)
  | turnEv (e : TurnEvent)
  | sentinel
deriving DecidableEq

/-- A chronological record of one state-changing action of the loop:
an event enqueued, a session write, a model-call turn, a span or trace
action, or a write of `is_complete` / `final_output`. -/
inductive Eff where
  | emit (e : Event)
  | save (items : List TItem)
  | turnRun (n : Nat)
  | spanStart (a : AgentId)
  | spanErr
  | spanFinish
  | traceStart
  | traceFinish
  | setComplete
  | setFinal (o : Nat)
deriving DecidableEq

/-- The loop-owned mutable state: the fields of `RunResultStreaming`
the loop writes, the loop's local variables, the effect log, and the
epoch counter.  The epoch is incremented at each `await` point of the
loop; the cancellation flag is sampled per epoch, which captures that
under asyncio the flag can only change across a suspension point. -/
structure RState where
  log : List Eff
  isComplete : Bool
  finalOutput : Option Nat
  newItems : List TItem
  inputVal : InputVal
  rawResponses : List Nat
  currentTurn : Nat
  currentAgent : AgentId
  currentSpan : Option AgentId
  shouldRunStartHooks : Bool
  epoch : Nat
  session : Option (List TItem)
deriving DecidableEq

/-- A run configuration together with the environment oracles:
`schedule n` is the behaviour of turn `n`'s executor, `cancelOracle e`
is the value of the `_cancel_mode == "after_turn"` test at epoch `e`,
`session` / `sessionCallback` model the session adapter, and
`ownsTrace` says whether `run_streamed` created a new trace (i.e. no
ambient trace was active). -/
structure LoopCfg where
  maxTurns : Nat
  cancelOracle : Nat → Bool
  schedule : Nat → TurnOut
  session : Option (List TItem)
  sessionCallback : Option (List TItem → List TItem → List TItem)
  startingAgent : AgentId
  startingInput : InputVal
  ownsTrace : Bool

/-- Append one effect to the chronological log. -/
def push (s : RState) (e : Eff) : RState := { s with log := s.log ++ [e] }

/-- The `is_complete = True` assignment immediately followed by
`put_nowait(QueueCompleteSentinel())` (lines 193-194, 265-266, 274-275,
282-283, 288-289, 297-298). -/
def emitSentinelComplete (s : RState) : RState :=
  push (push { s with isComplete := true } Eff.setComplete) (Eff.emit Event.sentinel)

/-- `await _save_result_to_session(session, orig, newItems)` (lines
577-596): an await point; with a session configured it appends
`input_to_new_input_list(orig) ++ newItems` to the stored items and is
recorded as a `save` effect; without a session it returns at once. -/
def doSave (s : RState) (orig : InputVal) (newItems : List TItem) : RState :=
  let s1 := { s with epoch := s.epoch + 1 }
  match s1.session with
  | none => s1
  | some stored =>
    let saved := inputToNewInputList orig ++ newItems
    push { s1 with session := some (stored ++ saved) } (Eff.save saved)

/-- Lines 204-216: if no span is open, resolve the handoff list (an
await point) and start a span for the current agent. -/
def spanOpenIfNone (s : RState) : RState :=
  match s.currentSpan with
  | some _ => s
  | none =>
    push { s with epoch := s.epoch + 1, currentSpan := some s.currentAgent }
      (Eff.spanStart s.currentAgent)

/-- The events the turn pushed while it ran, in order. -/
def emitTurnEvents (s : RState) (evs : List TurnEvent) : RState :=
  evs.foldl (fun t e => push t (Eff.emit (Event.turnEv e))) s

/-- Lines 246-251: clear the start-hooks flag and update the result
state from the turn's step result (`raw_responses` appended, `input`
and `new_items` reassigned). -/
def afterTurnUpdate (s : RState) (r : SingleStepResult) : RState :=
  { s with shouldRunStartHooks := false
           rawResponses := s.rawResponses ++ [r.model_response]
           inputVal := r.original_input
           newItems := r.generated_items }

/-- Result of one iteration of the `while True` body: leave the loop,
go around again, or let an exception propagate. -/
inductive IterOut where
  | brk (s : RState)
  | cont (s : RState)
  | threw (s : RState) (c : ExnKind)

/-- Lines 254-267 (`NextStepHandoff`): save the turn's new items, swap
the current agent, finish the span, set the start-hooks flag, emit the
agent-updated event, then re-check cancellation. -/
def handoffBranch (cfg : LoopCfg) (s : RState) (r : SingleStepResult) (a : AgentId) : IterOut :=
  let s1 := doSave s (InputVal.items []) r.new_step_items
  let s2 := push { s1 with currentAgent := a, currentSpan := none, shouldRunStartHooks := true }
    Eff.spanFinish
  let s3 := push s2 (Eff.emit (Event.agentUpdated a))
  if cfg.cancelOracle s3.epoch then IterOut.brk (emitSentinelComplete s3) else IterOut.cont s3

/-- Lines 269-275 (`NextStepFinalOutput`): save the turn's new items,
set the final output, mark complete, enqueue the sentinel.  The source
has no `break` here, so the `while` condition logic runs once more. -/
def finalBranch (s : RState) (r : SingleStepResult) (o : Nat) : IterOut :=
  let s1 := doSave s (InputVal.items []) r.new_step_items
  IterOut.cont (emitSentinelComplete (push { s1 with finalOutput := some o } (Eff.setFinal o)))

/-- Lines 277-284 (`NextStepRunAgain`): save the turn's new items, then
re-check cancellation. -/
def runAgainBranch (cfg : LoopCfg) (s : RState) (r : SingleStepResult) : IterOut :=
  let s1 := doSave s (InputVal.items []) r.new_step_items
  if cfg.cancelOracle s1.epoch then IterOut.brk (emitSentinelComplete s1) else IterOut.cont s1

/-- Lines 218-284: increment the turn counter; if it exceeds the
configured max, attach the error annotation to the active span and
enqueue the sentinel without raising (the consumer observes the error
later); otherwise run the turn (an await point) and dispatch on the
step result. -/
def runTurnPhase (cfg : LoopCfg) (s : RState) : IterOut :=
  let sT := { s with currentTurn := s.currentTurn + 1 }
  if cfg.maxTurns < sT.currentTurn then
    IterOut.brk (push (push sT Eff.spanErr) (Eff.emit Event.sentinel))
  else
    let sR := push { sT with epoch := sT.epoch + 1 } (Eff.turnRun sT.currentTurn)
    match cfg.schedule sT.currentTurn with
    | TurnOut.throws c => IterOut.threw sR c
    | TurnOut.ok emitted r =>
      let sE := afterTurnUpdate (emitTurnEvents sR emitted) r
      match r.next_step with
      | NextStep.handoff a => handoffBranch cfg sE r a
      | NextStep.finalOutput o => finalBranch sE r o
      | NextStep.runAgain => runAgainBranch cfg sE r

/-- One iteration of the `while True` body (lines 190-284): the
cancellation checkpoint at the top of the loop, then the completion
check, then tool gathering (an await point), lazy span opening, and the
turn phase. -/
def loopIter (cfg : LoopCfg) (s : RState) : IterOut :=
  if cfg.cancelOracle s.epoch then IterOut.brk (emitSentinelComplete s)
  else if s.isComplete then IterOut.brk s
  else runTurnPhase cfg (spanOpenIfNone { s with epoch := s.epoch + 1 })

/-- Fuel-indexed iteration of the loop body.  `streamingLoop` supplies
`maxTurns + 2` fuel, which is never exhausted because every
non-breaking iteration increments the turn counter and the counter is
capped by the max-turns check. -/
def loopRunFuel (cfg : LoopCfg) : Nat → RState → RState × Option ExnKind
  | 0, s => (s, none)
  | Nat.succ fuel, s =>
    match loopIter cfg s with
    | IterOut.brk s1 => (s1, none)
    | IterOut.threw s1 c => (s1, some c)
    | IterOut.cont s1 => loopRunFuel cfg fuel s1

/-- Lines 291-298 (`finally`): close any open span, finish the owned
trace, and if the loop is somehow not complete yet, mark complete and
enqueue the sentinel. -/
def finallyPhase (cfg : LoopCfg) (s : RState) : RState :=
  let s1 :=
    match s.currentSpan with
    | some _ => push { s with currentSpan := none } Eff.spanFinish
    | none => s
  let s2 := if cfg.ownsTrace then push s1 Eff.traceFinish else s1
  if s2.isComplete then s2 else emitSentinelComplete s2

/-- Lines 287-290 (`except Exception`): mark complete, enqueue the
sentinel, re-raise. -/
def exceptPhase (s : RState) : RState := emitSentinelComplete s

/-- The state at entry of `_streaming_loop`: the fields initialized by
`run_streamed` (lines 122-138) and the loop locals (lines 171-175). -/
def initialState (cfg : LoopCfg) : RState :=
  { log := []
    isComplete := false
    finalOutput := none
    newItems := []
    inputVal := cfg.startingInput
    rawResponses := []
    currentTurn := 0
    currentAgent := cfg.startingAgent
    currentSpan := none
    shouldRunStartHooks := true
    epoch := 0
    session := cfg.session }

/-- `_streaming_loop` (lines 155-298): start the owned trace, emit the
initial agent-updated event, prepare the input with the session (an
await point; a `UserError` raised there flows through the
except/finally path), save the original input to the session, run the
loop, then the line-286 completion assignment and the finally block.
Returns the final state and the exception the background task
re-raised, if any. -/
def streamingLoop (cfg : LoopCfg) : RState × Option ExnKind :=
  let s0 := initialState cfg
  let s1 := if cfg.ownsTrace then push s0 Eff.traceStart else s0
  let s2 := push s1 (Eff.emit (Event.agentUpdated cfg.startingAgent))
  match prepareInputWithSession cfg.startingInput cfg.session cfg.sessionCallback with
  | Except.error c => (finallyPhase cfg (exceptPhase s2), some c)
  | Except.ok prepared =>
    let s3 := doSave { s2 with inputVal := prepared, epoch := s2.epoch + 1 } cfg.startingInput []
    match loopRunFuel cfg (cfg.maxTurns + 2) s3 with
    | (s4, none) => (finallyPhase cfg (push { s4 with isComplete := true } Eff.setComplete), none)
    | (s4, some c) =>
      if isExceptionClass c then (finallyPhase cfg (exceptPhase s4), some c)
      else (finallyPhase cfg s4, some c)

/- ### Two-checkpoint variant, for claim C5 -/

/-- Modelled from the spec: the run-again branch of a loop in which
cancellation is honoured only at the spec's two checkpoints (§4.3: top
of loop and immediately after a handoff), i.e. without the re-check of
source lines 281-284. -/
def runAgainBranchTwoCp (s : RState) (r : SingleStepResult) : IterOut :=
  IterOut.cont (doSave s (InputVal.items []) r.new_step_items)

/-- Modelled from the spec: the turn phase of the two-checkpoint loop;
identical to `runTurnPhase` except for the run-again branch. -/
def runTurnPhaseTwoCp (cfg : LoopCfg) (s : RState) : IterOut :=
  let sT := { s with currentTurn := s.currentTurn + 1 }
  if cfg.maxTurns < sT.currentTurn then
    IterOut.brk (push (push sT Eff.spanErr) (Eff.emit Event.sentinel))
  else
    let sR := push { sT with epoch := sT.epoch + 1 } (Eff.turnRun sT.currentTurn)
    match cfg.schedule sT.currentTurn with
    | TurnOut.throws c => IterOut.threw sR c
    | TurnOut.ok emitted r =>
      let sE := afterTurnUpdate (emitTurnEvents sR emitted) r
      match r.next_step with
      | NextStep.handoff a => handoffBranch cfg sE r a
      | NextStep.finalOutput o => finalBranch sE r o
      | NextStep.runAgain => runAgainBranchTwoCp sE r

/-- Modelled from the spec: one iteration of the two-checkpoint loop. -/
def loopIterTwoCp (cfg : LoopCfg) (s : RState) : IterOut :=
  if cfg.cancelOracle s.epoch then IterOut.brk (emitSentinelComplete s)
  else if s.isComplete then IterOut.brk s
  else runTurnPhaseTwoCp cfg (spanOpenIfNone { s with epoch := s.epoch + 1 })

/-- Modelled from the spec: fuel-indexed iteration of the
two-checkpoint loop. -/
def loopRunFuelTwoCp (cfg : LoopCfg) : Nat → RState → RState × Option ExnKind
  | 0, s => (s, none)
  | Nat.succ fuel, s =>
    match loopIterTwoCp cfg s with
    | IterOut.brk s1 => (s1, none)
    | IterOut.threw s1 c => (s1, some c)
    | IterOut.cont s1 => loopRunFuelTwoCp cfg fuel s1

/-- Modelled from the spec: the streaming loop with cancellation
honoured only at the two checkpoints of §4.3. -/
def streamingLoopTwoCheckpoint (cfg : LoopCfg) : RState × Option ExnKind :=
  let s0 := initialState cfg
  let s1 := if cfg.ownsTrace then push s0 Eff.traceStart else s0
  let s2 := push s1 (Eff.emit (Event.agentUpdated cfg.startingAgent))
  match prepareInputWithSession cfg.startingInput cfg.session cfg.sessionCallback with
  | Except.error c => (finallyPhase cfg (exceptPhase s2), some c)
  | Except.ok prepared =>
    let s3 := doSave { s2 with inputVal := prepared, epoch := s2.epoch + 1 } cfg.startingInput []
    match loopRunFuelTwoCp cfg (cfg.maxTurns + 2) s3 with
    | (s4, none) => (finallyPhase cfg (push { s4 with isComplete := true } Eff.setComplete), none)
    | (s4, some c) =>
      if isExceptionClass c then (finallyPhase cfg (exceptPhase s4), some c)
      else (finallyPhase cfg s4, some c)

/- ### `ReactRunnerConfig` (lines 46-55) -/

/-- The behaviour selector declared by `ReactRunnerConfig.on_max_turns`. -/
inductive OnMaxTurns where
  | error
  | reply
deriving DecidableEq

/-- `ReactRunnerConfig` (lines 46-55): the dataclass docstring promises
that under "reply" the runner removes tools and generates a final
reply, but neither `run_streamed` nor `_streaming_loop` takes or reads
a `ReactRunnerConfig`.  The `max_turns` default is the SDK's
`DEFAULT_MAX_TURNS` (10). -/
structure ReactRunnerConfig where
  max_turns : Nat := 10
  on_max_turns : OnMaxTurns := OnMaxTurns.error

/- ### Observations over the effect log -/

/-- The caller-visible event sequence: the `emit` entries of the log in
order. -/
def eventsOf (log : List Eff) : List Event :=
  log.filterMap fun e => match e with | Eff.emit ev => some ev | _ => none

/-- Number of sentinel events in the log. -/
def sentinelCount (log : List Eff) : Nat :=
  (eventsOf log).count Event.sentinel

/-- Once a sentinel has been enqueued, every later event is a sentinel:
skip the events before the first sentinel, then require every remaining
event to be a sentinel. -/
def sentinelTail : List Event → Bool
  | [] => true
  | Event.sentinel :: rest => rest.all fun e => e == Event.sentinel
  | _ :: rest => sentinelTail rest

/-- Whether turn `n` is scheduled to produce a handoff step result. -/
def isHandoffTurn (cfg : LoopCfg) (n : Nat) : Bool :=
  match cfg.schedule n with
  | TurnOut.ok _ r => match r.next_step with | NextStep.handoff _ => true | _ => false
  | TurnOut.throws _ => false

/-- Number of executed turns whose step result was a handoff. -/
def handoffCount (cfg : LoopCfg) (log : List Eff) : Nat :=
  log.countP fun e => match e with | Eff.turnRun n => isHandoffTurn cfg n | _ => false

/-- Number of agent-updated events enqueued. -/
def agentUpdatedCount (log : List Eff) : Nat :=
  log.countP fun e => match e with | Eff.emit (Event.agentUpdated _) => true | _ => false

/-- Number of spans opened. -/
def spanStartCount (log : List Eff) : Nat :=
  log.countP fun e => match e with | Eff.spanStart _ => true | _ => false

/-- Number of spans finished. -/
def spanFinishCount (log : List Eff) : Nat := log.count Eff.spanFinish

/-- Number of trace-finish actions. -/
def traceFinishCount (log : List Eff) : Nat := log.count Eff.traceFinish

/-- Number of `final_output` assignments. -/
def setFinalCount (log : List Eff) : Nat :=
  log.countP fun e => match e with | Eff.setFinal _ => true | _ => false

/-- The number 1 when a span is open in `s`, 0 otherwise. -/
def spanOpenBit (s : RState) : Nat := if s.currentSpan.isSome then 1 else 0

/- ### Elementary facts about the state helpers -/

@[simp] lemma push_log (s : RState) (e : Eff) : (push s e).log = s.log ++ [e] := rfl

@[simp] lemma push_isComplete (s : RState) (e : Eff) : (push s e).isComplete = s.isComplete := rfl

@[simp] lemma push_currentSpan (s : RState) (e : Eff) : (push s e).currentSpan = s.currentSpan := rfl

@[simp] lemma push_currentTurn (s : RState) (e : Eff) : (push s e).currentTurn = s.currentTurn := rfl

@[simp] lemma push_epoch (s : RState) (e : Eff) : (push s e).epoch = s.epoch := rfl

@[simp] lemma push_session (s : RState) (e : Eff) : (push s e).session = s.session := rfl

@[simp] lemma push_finalOutput (s : RState) (e : Eff) : (push s e).finalOutput = s.finalOutput := rfl

@[simp] lemma push_currentAgent (s : RState) (e : Eff) : (push s e).currentAgent = s.currentAgent := rfl

@[simp] lemma emitSentinelComplete_log (s : RState) :
    (emitSentinelComplete s).log = s.log ++ [Eff.setComplete, Eff.emit Event.sentinel] := by
  simp [emitSentinelComplete]

@[simp] lemma emitSentinelComplete_isComplete (s : RState) :
    (emitSentinelComplete s).isComplete = true := rfl

@[simp] lemma emitSentinelComplete_currentSpan (s : RState) :
    (emitSentinelComplete s).currentSpan = s.currentSpan := rfl

@[simp] lemma emitSentinelComplete_currentTurn (s : RState) :
    (emitSentinelComplete s).currentTurn = s.currentTurn := rfl

@[simp] lemma emitSentinelComplete_finalOutput (s : RState) :
    (emitSentinelComplete s).finalOutput = s.finalOutput := rfl

@[simp] lemma emitSentinelComplete_epoch (s : RState) :
    (emitSentinelComplete s).epoch = s.epoch := rfl

@[simp] lemma emitSentinelComplete_session (s : RState) :
    (emitSentinelComplete s).session = s.session := rfl

@[simp] lemma doSave_epoch (s : RState) (o : InputVal) (ni : List TItem) :
    (doSave s o ni).epoch = s.epoch + 1 := by
  cases h : s.session <;> simp [doSave, h]

@[simp] lemma doSave_isComplete (s : RState) (o : InputVal) (ni : List TItem) :
    (doSave s o ni).isComplete = s.isComplete := by
  cases h : s.session <;> simp [doSave, h]

@[simp] lemma doSave_currentSpan (s : RState) (o : InputVal) (ni : List TItem) :
    (doSave s o ni).currentSpan = s.currentSpan := by
  cases h : s.session <;> simp [doSave, h]

@[simp] lemma doSave_currentTurn (s : RState) (o : InputVal) (ni : List TItem) :
    (doSave s o ni).currentTurn = s.currentTurn := by
  cases h : s.session <;> simp [doSave, h]

@[simp] lemma doSave_finalOutput (s : RState) (o : InputVal) (ni : List TItem) :
    (doSave s o ni).finalOutput = s.finalOutput := by
  cases h : s.session <;> simp [doSave, h]

@[simp] lemma doSave_currentAgent (s : RState) (o : InputVal) (ni : List TItem) :
    (doSave s o ni).currentAgent = s.currentAgent := by
  cases h : s.session <;> simp [doSave, h]

lemma doSave_log_none (s : RState) (o : InputVal) (ni : List TItem) (h : s.session = none) :
    (doSave s o ni).log = s.log := by
  simp [doSave, h]

lemma doSave_log_some (s : RState) (o : InputVal) (ni : List TItem) (stored : List TItem)
    (h : s.session = some stored) :
    (doSave s o ni).log = s.log ++ [Eff.save (inputToNewInputList o ++ ni)] := by
  simp [doSave, h]

lemma doSave_log_cases (s : RState) (o : InputVal) (ni : List TItem) :
    (doSave s o ni).log = s.log ∨
      (doSave s o ni).log = s.log ++ [Eff.save (inputToNewInputList o ++ ni)] := by
  cases h : s.session with
  | none => exact Or.inl (doSave_log_none s o ni h)
  | some stored => exact Or.inr (doSave_log_some s o ni stored h)

@[simp] lemma spanOpenIfNone_currentTurn (s : RState) :
    (spanOpenIfNone s).currentTurn = s.currentTurn := by
  cases h : s.currentSpan <;> simp [spanOpenIfNone, h]

@[simp] lemma spanOpenIfNone_isComplete (s : RState) :
    (spanOpenIfNone s).isComplete = s.isComplete := by
  cases h : s.currentSpan <;> simp [spanOpenIfNone, h]

@[simp] lemma spanOpenIfNone_session (s : RState) :
    (spanOpenIfNone s).session = s.session := by
  cases h : s.currentSpan <;> simp [spanOpenIfNone, h]

@[simp] lemma spanOpenIfNone_finalOutput (s : RState) :
    (spanOpenIfNone s).finalOutput = s.finalOutput := by
  cases h : s.currentSpan <;> simp [spanOpenIfNone, h]

@[simp] lemma spanOpenIfNone_isSome (s : RState) :
    (spanOpenIfNone s).currentSpan.isSome = true := by
  cases h : s.currentSpan <;> simp [spanOpenIfNone, h]

lemma emitTurnEvents_eq (evs : List TurnEvent) (s : RState) :
    emitTurnEvents s evs =
      { s with log := s.log ++ evs.map fun e => Eff.emit (Event.turnEv e) } := by
  induction evs generalizing s with
  | nil => simp [emitTurnEvents]
  | cons e rest ih =>
    show emitTurnEvents (push s (Eff.emit (Event.turnEv e))) rest = _
    rw [ih]
    simp [push]

@[simp] lemma afterTurnUpdate_log (s : RState) (r : SingleStepResult) :
    (afterTurnUpdate s r).log = s.log := rfl

@[simp] lemma afterTurnUpdate_isComplete (s : RState) (r : SingleStepResult) :
    (afterTurnUpdate s r).isComplete = s.isComplete := rfl

@[simp] lemma afterTurnUpdate_currentSpan (s : RState) (r : SingleStepResult) :
    (afterTurnUpdate s r).currentSpan = s.currentSpan := rfl

@[simp] lemma afterTurnUpdate_currentTurn (s : RState) (r : SingleStepResult) :
    (afterTurnUpdate s r).currentTurn = s.currentTurn := rfl

@[simp] lemma afterTurnUpdate_epoch (s : RState) (r : SingleStepResult) :
    (afterTurnUpdate s r).epoch = s.epoch := rfl

@[simp] lemma afterTurnUpdate_session (s : RState) (r : SingleStepResult) :
    (afterTurnUpdate s r).session = s.session := rfl

@[simp] lemma afterTurnUpdate_finalOutput (s : RState) (r : SingleStepResult) :
    (afterTurnUpdate s r).finalOutput = s.finalOutput := rfl

/- ### Counting lemmas over logs -/

@[simp] lemma eventsOf_append (l1 l2 : List Eff) :
    eventsOf (l1 ++ l2) = eventsOf l1 ++ eventsOf l2 := by
  simp [eventsOf]

@[simp] lemma sentinelCount_append (l1 l2 : List Eff) :
    sentinelCount (l1 ++ l2) = sentinelCount l1 + sentinelCount l2 := by
  simp [sentinelCount]

@[simp] lemma spanStartCount_append (l1 l2 : List Eff) :
    spanStartCount (l1 ++ l2) = spanStartCount l1 + spanStartCount l2 := by
  simp [spanStartCount]

@[simp] lemma spanFinishCount_append (l1 l2 : List Eff) :
    spanFinishCount (l1 ++ l2) = spanFinishCount l1 + spanFinishCount l2 := by
  simp [spanFinishCount]

@[simp] lemma traceFinishCount_append (l1 l2 : List Eff) :
    traceFinishCount (l1 ++ l2) = traceFinishCount l1 + traceFinishCount l2 := by
  simp [traceFinishCount]

@[simp] lemma agentUpdatedCount_append (l1 l2 : List Eff) :
    agentUpdatedCount (l1 ++ l2) = agentUpdatedCount l1 + agentUpdatedCount l2 := by
  simp [agentUpdatedCount]

@[simp] lemma setFinalCount_append (l1 l2 : List Eff) :
    setFinalCount (l1 ++ l2) = setFinalCount l1 + setFinalCount l2 := by
  simp [setFinalCount]

@[simp] lemma handoffCount_append (cfg : LoopCfg) (l1 l2 : List Eff) :
    handoffCount cfg (l1 ++ l2) = handoffCount cfg l1 + handoffCount cfg l2 := by
  simp [handoffCount]

lemma handoffCount_turnEvents (cfg : LoopCfg) (evs : List TurnEvent) :
    handoffCount cfg (evs.map fun e => Eff.emit (Event.turnEv e)) = 0 := by
  induction evs with
  | nil => rfl
  | cons e rest ih => simpa [handoffCount] using ih

lemma agentUpdatedCount_turnEvents (evs : List TurnEvent) :
    agentUpdatedCount (evs.map fun e => Eff.emit (Event.turnEv e)) = 0 := by
  induction evs with
  | nil => rfl
  | cons e rest ih => simpa [agentUpdatedCount] using ih

lemma sentinelCount_turnEvents (evs : List TurnEvent) :
    sentinelCount (evs.map fun e => Eff.emit (Event.turnEv e)) = 0 := by
  induction evs with
  | nil => rfl
  | cons e rest ih => simpa [sentinelCount, eventsOf] using ih

lemma spanStartCount_turnEvents (evs : List TurnEvent) :
    spanStartCount (evs.map fun e => Eff.emit (Event.turnEv e)) = 0 := by
  induction evs with
  | nil => rfl
  | cons e rest ih => simpa [spanStartCount] using ih

lemma spanFinishCount_turnEvents (evs : List TurnEvent) :
    spanFinishCount (evs.map fun e => Eff.emit (Event.turnEv e)) = 0 := by
  induction evs with
  | nil => rfl
  | cons e rest ih => simpa [spanFinishCount] using ih

lemma traceFinishCount_turnEvents (evs : List TurnEvent) :
    traceFinishCount (evs.map fun e => Eff.emit (Event.turnEv e)) = 0 := by
  induction evs with
  | nil => rfl
  | cons e rest ih => simpa [traceFinishCount] using ih

lemma setFinalCount_turnEvents (evs : List TurnEvent) :
    setFinalCount (evs.map fun e => Eff.emit (Event.turnEv e)) = 0 := by
  induction evs with
  | nil => rfl
  | cons e rest ih => simpa [setFinalCount] using ih

lemma turnRun_not_mem_turnEvents (n : Nat) (evs : List TurnEvent) :
    Eff.turnRun n ∉ evs.map fun e => Eff.emit (Event.turnEv e) := by
  induction evs with
  | nil => simp
  | cons e rest ih => simp [ih]

lemma spanErr_not_mem_turnEvents (evs : List TurnEvent) :
    Eff.spanErr ∉ evs.map fun e => Eff.emit (Event.turnEv e) := by
  induction evs with
  | nil => simp
  | cons e rest ih => simp [ih]

/- ### Sentinel-tail lemmas -/

lemma sentinelTail_cons_of_ne (e : Event) (l : List Event) (he : e ≠ Event.sentinel) :
    sentinelTail (e :: l) = sentinelTail l := by
  cases e with
  | agentUpdated a => rfl
  | turnEv x => rfl
  | sentinel => exact absurd rfl he

lemma sentinelTail_sentinel_cons (l : List Event) :
    sentinelTail (Event.sentinel :: l) = l.all fun e => e == Event.sentinel := rfl

lemma sentinelTail_all_sentinel (l : List Event) (h : ∀ e ∈ l, e = Event.sentinel) :
    sentinelTail l = true := by
  cases l with
  | nil => rfl
  | cons e rest =>
    have he := h e (by simp)
    subst he
    rw [sentinelTail_sentinel_cons, List.all_eq_true]
    intro x hx
    simp [h x (by simp [hx])]

lemma sentinelTail_append_of_free (l1 l2 : List Event)
    (h1 : ∀ e ∈ l1, e ≠ Event.sentinel) (h2 : sentinelTail l2 = true) :
    sentinelTail (l1 ++ l2) = true := by
  induction l1 with
  | nil => simpa using h2
  | cons e rest ih =>
    have he : e ≠ Event.sentinel := h1 e (by simp)
    show sentinelTail (e :: (rest ++ l2)) = true
    rw [sentinelTail_cons_of_ne e _ he]
    exact ih fun x hx => h1 x (by simp [hx])

lemma sentinelTail_of_no_sentinel (l : List Event) (h : ∀ e ∈ l, e ≠ Event.sentinel) :
    sentinelTail l = true := by
  have h2 : sentinelTail (l ++ []) = true := sentinelTail_append_of_free l [] h rfl
  simpa using h2

lemma sentinelTail_append_sentinels (l1 l2 : List Event)
    (h1 : sentinelTail l1 = true) (h2 : ∀ e ∈ l2, e = Event.sentinel) :
    sentinelTail (l1 ++ l2) = true := by
  induction l1 with
  | nil => exact sentinelTail_all_sentinel l2 h2
  | cons e rest ih =>
    by_cases he : e = Event.sentinel
    · subst he
      rw [sentinelTail_sentinel_cons, List.all_eq_true] at h1
      show sentinelTail (Event.sentinel :: (rest ++ l2)) = true
      rw [sentinelTail_sentinel_cons, List.all_eq_true]
      intro x hx
      rcases List.mem_append.mp hx with hx1 | hx2
      · exact h1 x hx1
      · simp [h2 x hx2]
    · rw [sentinelTail_cons_of_ne e _ he] at h1
      show sentinelTail (e :: (rest ++ l2)) = true
      rw [sentinelTail_cons_of_ne e _ he]
      exact ih h1

lemma sentinelTail_last (l : List Event) (ht : sentinelTail l = true)
    (hm : Event.sentinel ∈ l) : l.getLast? = some Event.sentinel := by
  induction l with
  | nil => simp at hm
  | cons e rest ih =>
    cases rest with
    | nil =>
      simp at hm
      simp [hm]
    | cons x xs =>
      rw [List.getLast?_cons_cons]
      by_cases he : e = Event.sentinel
      · subst he
        rw [sentinelTail_sentinel_cons, List.all_eq_true] at ht
        have hall : ∀ y ∈ x :: xs, y = Event.sentinel := by
          intro y hy
          have := ht y hy
          simpa using this
        have hx : x = Event.sentinel := hall x (by simp)
        exact ih (sentinelTail_all_sentinel _ hall) (by simp [hx])
      · rw [sentinelTail_cons_of_ne e _ he] at ht
        have hm2 : Event.sentinel ∈ x :: xs := by
          rcases List.mem_cons.mp hm with hm1 | hm1
          · exact absurd hm1.symm he
          · exact hm1
        exact ih ht hm2

/- ### Classification of one loop iteration -/

/-- The state after tool gathering (an await point) and lazy span
opening (lines 201-216), before the turn counter increments. -/
def preTurnState (s : RState) : RState :=
  spanOpenIfNone { s with epoch := s.epoch + 1 }

@[simp] lemma preTurnState_currentTurn (s : RState) :
    (preTurnState s).currentTurn = s.currentTurn := by
  simp [preTurnState]

@[simp] lemma preTurnState_isComplete (s : RState) :
    (preTurnState s).isComplete = s.isComplete := by
  simp [preTurnState]

@[simp] lemma preTurnState_session (s : RState) :
    (preTurnState s).session = s.session := by
  simp [preTurnState]

@[simp] lemma preTurnState_finalOutput (s : RState) :
    (preTurnState s).finalOutput = s.finalOutput := by
  simp [preTurnState]

lemma preTurnState_log_cases (s : RState) :
    (s.currentSpan.isSome = true ∧ (preTurnState s).log = s.log) ∨
      (s.currentSpan = none ∧
        (preTurnState s).log = s.log ++ [Eff.spanStart s.currentAgent]) := by
  cases h : s.currentSpan with
  | none => exact Or.inr ⟨rfl, by simp [preTurnState, spanOpenIfNone, h]⟩
  | some a => exact Or.inl ⟨by simp [h], by simp [preTurnState, spanOpenIfNone, h]⟩

/-- The state produced by the max-turns branch (lines 224-233). -/
def maxBrkState (s : RState) : RState :=
  push (push { preTurnState s with currentTurn := s.currentTurn + 1 } Eff.spanErr)
    (Eff.emit Event.sentinel)

/-- The state right after the turn executor is invoked for turn
`s.currentTurn + 1` (line 236, an await point). -/
def turnRanState (s : RState) : RState :=
  push
    { preTurnState s with
      currentTurn := s.currentTurn + 1,
      epoch := (preTurnState s).epoch + 1 }
    (Eff.turnRun (s.currentTurn + 1))

/-- The state after a successful turn: the turn's queue events flushed
and the result-state update of lines 246-251 applied. -/
def turnOkState (s : RState) (emitted : List TurnEvent) (r : SingleStepResult) : RState :=
  afterTurnUpdate (emitTurnEvents (turnRanState s) emitted) r

/-- The state at the handoff branch's cancellation re-check (line 264). -/
def handoffDoneState (s : RState) (emitted : List TurnEvent) (r : SingleStepResult)
    (a : AgentId) : RState :=
  push (push { doSave (turnOkState s emitted r) (InputVal.items []) r.new_step_items with
    currentAgent := a, currentSpan := none, shouldRunStartHooks := true } Eff.spanFinish)
    (Eff.emit (Event.agentUpdated a))

/-- The state after the final-output branch (lines 269-275). -/
def finalDoneState (s : RState) (emitted : List TurnEvent) (r : SingleStepResult)
    (o : Nat) : RState :=
  emitSentinelComplete
    (push { doSave (turnOkState s emitted r) (InputVal.items []) r.new_step_items with
      finalOutput := some o } (Eff.setFinal o))

/-- The state at the run-again branch's cancellation re-check (line 281). -/
def runAgainDoneState (s : RState) (emitted : List TurnEvent) (r : SingleStepResult) : RState :=
  doSave (turnOkState s emitted r) (InputVal.items []) r.new_step_items

lemma runTurnPhase_eq (cfg : LoopCfg) (s : RState) :
    runTurnPhase cfg (preTurnState s) =
      if cfg.maxTurns < s.currentTurn + 1 then IterOut.brk (maxBrkState s)
      else
        match cfg.schedule (s.currentTurn + 1) with
        | TurnOut.throws c => IterOut.threw (turnRanState s) c
        | TurnOut.ok emitted r =>
          match r.next_step with
          | NextStep.handoff a =>
            if cfg.cancelOracle (handoffDoneState s emitted r a).epoch then
              IterOut.brk (emitSentinelComplete (handoffDoneState s emitted r a))
            else IterOut.cont (handoffDoneState s emitted r a)
          | NextStep.finalOutput o => IterOut.cont (finalDoneState s emitted r o)
          | NextStep.runAgain =>
            if cfg.cancelOracle (runAgainDoneState s emitted r).epoch then
              IterOut.brk (emitSentinelComplete (runAgainDoneState s emitted r))
            else IterOut.cont (runAgainDoneState s emitted r) := by
  unfold runTurnPhase
  simp only [preTurnState_currentTurn]
  rfl

/-- Complete classification of one iteration of the `while True` body:
which branch fired, under which oracle readings, with the exact
resulting state. -/
lemma loopIter_cases (cfg : LoopCfg) (s : RState) :
    (cfg.cancelOracle s.epoch = true ∧
      loopIter cfg s = IterOut.brk (emitSentinelComplete s)) ∨
    (cfg.cancelOracle s.epoch = false ∧ s.isComplete = true ∧
      loopIter cfg s = IterOut.brk s) ∨
    (cfg.cancelOracle s.epoch = false ∧ s.isComplete = false ∧
      cfg.maxTurns < s.currentTurn + 1 ∧
      loopIter cfg s = IterOut.brk (maxBrkState s)) ∨
    (∃ c, cfg.cancelOracle s.epoch = false ∧ s.isComplete = false ∧
      s.currentTurn + 1 ≤ cfg.maxTurns ∧
      cfg.schedule (s.currentTurn + 1) = TurnOut.throws c ∧
      loopIter cfg s = IterOut.threw (turnRanState s) c) ∨
    (∃ emitted r a, cfg.cancelOracle s.epoch = false ∧ s.isComplete = false ∧
      s.currentTurn + 1 ≤ cfg.maxTurns ∧
      cfg.schedule (s.currentTurn + 1) = TurnOut.ok emitted r ∧
      r.next_step = NextStep.handoff a ∧
      cfg.cancelOracle (handoffDoneState s emitted r a).epoch = false ∧
      loopIter cfg s = IterOut.cont (handoffDoneState s emitted r a)) ∨
    (∃ emitted r a, cfg.cancelOracle s.epoch = false ∧ s.isComplete = false ∧
      s.currentTurn + 1 ≤ cfg.maxTurns ∧
      cfg.schedule (s.currentTurn + 1) = TurnOut.ok emitted r ∧
      r.next_step = NextStep.handoff a ∧
      cfg.cancelOracle (handoffDoneState s emitted r a).epoch = true ∧
      loopIter cfg s = IterOut.brk (emitSentinelComplete (handoffDoneState s emitted r a))) ∨
    (∃ emitted r o, cfg.cancelOracle s.epoch = false ∧ s.isComplete = false ∧
      s.currentTurn + 1 ≤ cfg.maxTurns ∧
      cfg.schedule (s.currentTurn + 1) = TurnOut.ok emitted r ∧
      r.next_step = NextStep.finalOutput o ∧
      loopIter cfg s = IterOut.cont (finalDoneState s emitted r o)) ∨
    (∃ emitted r, cfg.cancelOracle s.epoch = false ∧ s.isComplete = false ∧
      s.currentTurn + 1 ≤ cfg.maxTurns ∧
      cfg.schedule (s.currentTurn + 1) = TurnOut.ok emitted r ∧
      r.next_step = NextStep.runAgain ∧
      cfg.cancelOracle (runAgainDoneState s emitted r).epoch = false ∧
      loopIter cfg s = IterOut.cont (runAgainDoneState s emitted r)) ∨
    (∃ emitted r, cfg.cancelOracle s.epoch = false ∧ s.isComplete = false ∧
      s.currentTurn + 1 ≤ cfg.maxTurns ∧
      cfg.schedule (s.currentTurn + 1) = TurnOut.ok emitted r ∧
      r.next_step = NextStep.runAgain ∧
      cfg.cancelOracle (runAgainDoneState s emitted r).epoch = true ∧
      loopIter cfg s =
        IterOut.brk (emitSentinelComplete (runAgainDoneState s emitted r))) := by
  have hiter0 : loopIter cfg s =
      (if cfg.cancelOracle s.epoch then IterOut.brk (emitSentinelComplete s)
        else if s.isComplete then IterOut.brk s
        else runTurnPhase cfg (preTurnState s)) := rfl
  by_cases hc : cfg.cancelOracle s.epoch = true
  · exact Or.inl ⟨hc, by rw [hiter0, if_pos hc]⟩
  · have hcf : cfg.cancelOracle s.epoch = false := by simpa using hc
    by_cases hd : s.isComplete = true
    · exact Or.inr (Or.inl ⟨hcf, hd, by rw [hiter0, if_neg hc, if_pos hd]⟩)
    · have hdf : s.isComplete = false := by simpa using hd
      have e1 : loopIter cfg s = runTurnPhase cfg (preTurnState s) := by
        rw [hiter0, if_neg hc, if_neg hd]
      by_cases hm : cfg.maxTurns < s.currentTurn + 1
      · refine Or.inr (Or.inr (Or.inl ⟨hcf, hdf, hm, ?_⟩))
        rw [e1, runTurnPhase_eq, if_pos hm]
      · have hm2 : s.currentTurn + 1 ≤ cfg.maxTurns := by omega
        have e2 : loopIter cfg s =
            (match cfg.schedule (s.currentTurn + 1) with
            | TurnOut.throws c => IterOut.threw (turnRanState s) c
            | TurnOut.ok emitted r =>
              match r.next_step with
              | NextStep.handoff a =>
                if cfg.cancelOracle (handoffDoneState s emitted r a).epoch then
                  IterOut.brk (emitSentinelComplete (handoffDoneState s emitted r a))
                else IterOut.cont (handoffDoneState s emitted r a)
              | NextStep.finalOutput o => IterOut.cont (finalDoneState s emitted r o)
              | NextStep.runAgain =>
                if cfg.cancelOracle (runAgainDoneState s emitted r).epoch then
                  IterOut.brk (emitSentinelComplete (runAgainDoneState s emitted r))
                else IterOut.cont (runAgainDoneState s emitted r)) := by
          rw [e1, runTurnPhase_eq, if_neg hm]
        rcases hs : cfg.schedule (s.currentTurn + 1) with ⟨emitted, r⟩ | c
        · have e3 : loopIter cfg s =
              (match r.next_step with
              | NextStep.handoff a =>
                if cfg.cancelOracle (handoffDoneState s emitted r a).epoch then
                  IterOut.brk (emitSentinelComplete (handoffDoneState s emitted r a))
                else IterOut.cont (handoffDoneState s emitted r a)
              | NextStep.finalOutput o => IterOut.cont (finalDoneState s emitted r o)
              | NextStep.runAgain =>
                if cfg.cancelOracle (runAgainDoneState s emitted r).epoch then
                  IterOut.brk (emitSentinelComplete (runAgainDoneState s emitted r))
                else IterOut.cont (runAgainDoneState s emitted r)) := by
            rw [e2, hs]
          rcases hn : r.next_step with a | o | _
          · have e4 : loopIter cfg s =
                (if cfg.cancelOracle (handoffDoneState s emitted r a).epoch then
                  IterOut.brk (emitSentinelComplete (handoffDoneState s emitted r a))
                else IterOut.cont (handoffDoneState s emitted r a)) := by
              rw [e3, hn]
            by_cases hc2 : cfg.cancelOracle (handoffDoneState s emitted r a).epoch = true
            · refine Or.inr (Or.inr (Or.inr (Or.inr (Or.inr (Or.inl
                ⟨emitted, r, a, hcf, hdf, hm2, rfl, hn, hc2, ?_⟩)))))
              rw [e4, if_pos hc2]
            · have hc2f : cfg.cancelOracle (handoffDoneState s emitted r a).epoch = false := by
                simpa using hc2
              refine Or.inr (Or.inr (Or.inr (Or.inr (Or.inl
                ⟨emitted, r, a, hcf, hdf, hm2, rfl, hn, hc2f, ?_⟩))))
              rw [e4, if_neg hc2]
          · refine Or.inr (Or.inr (Or.inr (Or.inr (Or.inr (Or.inr (Or.inl
              ⟨emitted, r, o, hcf, hdf, hm2, rfl, hn, ?_⟩))))))
            rw [e3, hn]
          · have e4 : loopIter cfg s =
                (if cfg.cancelOracle (runAgainDoneState s emitted r).epoch then
                  IterOut.brk (emitSentinelComplete (runAgainDoneState s emitted r))
                else IterOut.cont (runAgainDoneState s emitted r)) := by
              rw [e3, hn]
            by_cases hc2 : cfg.cancelOracle (runAgainDoneState s emitted r).epoch = true
            · refine Or.inr (Or.inr (Or.inr (Or.inr (Or.inr (Or.inr (Or.inr (Or.inr
                ⟨emitted, r, hcf, hdf, hm2, rfl, hn, hc2, ?_⟩)))))))
              rw [e4, if_pos hc2]
            · have hc2f : cfg.cancelOracle (runAgainDoneState s emitted r).epoch = false := by
                simpa using hc2
              refine Or.inr (Or.inr (Or.inr (Or.inr (Or.inr (Or.inr (Or.inr (Or.inl
                ⟨emitted, r, hcf, hdf, hm2, rfl, hn, hc2f, ?_⟩)))))))
              rw [e4, if_neg hc2]
        · refine Or.inr (Or.inr (Or.inr (Or.inl ⟨c, hcf, hdf, hm2, rfl, ?_⟩)))
          rw [e2, hs]

lemma loopRunFuel_succ (cfg : LoopCfg) (fuel : Nat) (s : RState) :
    loopRunFuel cfg (fuel + 1) s =
      match loopIter cfg s with
      | IterOut.brk s1 => (s1, none)
      | IterOut.threw s1 c => (s1, some c)
      | IterOut.cont s1 => loopRunFuel cfg fuel s1 := rfl

/- ### Field and log facts for the per-branch states -/

@[simp] lemma emitTurnEvents_log (s : RState) (evs : List TurnEvent) :
    (emitTurnEvents s evs).log = s.log ++ evs.map fun e => Eff.emit (Event.turnEv e) := by
  rw [emitTurnEvents_eq]

@[simp] lemma emitTurnEvents_isComplete (s : RState) (evs : List TurnEvent) :
    (emitTurnEvents s evs).isComplete = s.isComplete := by
  rw [emitTurnEvents_eq]

@[simp] lemma emitTurnEvents_currentSpan (s : RState) (evs : List TurnEvent) :
    (emitTurnEvents s evs).currentSpan = s.currentSpan := by
  rw [emitTurnEvents_eq]

@[simp] lemma emitTurnEvents_currentTurn (s : RState) (evs : List TurnEvent) :
    (emitTurnEvents s evs).currentTurn = s.currentTurn := by
  rw [emitTurnEvents_eq]

@[simp] lemma emitTurnEvents_epoch (s : RState) (evs : List TurnEvent) :
    (emitTurnEvents s evs).epoch = s.epoch := by
  rw [emitTurnEvents_eq]

@[simp] lemma emitTurnEvents_session (s : RState) (evs : List TurnEvent) :
    (emitTurnEvents s evs).session = s.session := by
  rw [emitTurnEvents_eq]

@[simp] lemma emitTurnEvents_finalOutput (s : RState) (evs : List TurnEvent) :
    (emitTurnEvents s evs).finalOutput = s.finalOutput := by
  rw [emitTurnEvents_eq]

@[simp] lemma preTurnState_currentSpan_isSome (s : RState) :
    (preTurnState s).currentSpan.isSome = true := by
  simp [preTurnState]

@[simp] lemma maxBrkState_log (s : RState) :
    (maxBrkState s).log = (preTurnState s).log ++ [Eff.spanErr, Eff.emit Event.sentinel] := by
  simp [maxBrkState]

@[simp] lemma maxBrkState_isComplete (s : RState) :
    (maxBrkState s).isComplete = s.isComplete := by
  simp [maxBrkState]

@[simp] lemma maxBrkState_currentSpan (s : RState) :
    (maxBrkState s).currentSpan = (preTurnState s).currentSpan := by
  simp [maxBrkState]

@[simp] lemma turnRanState_log (s : RState) :
    (turnRanState s).log = (preTurnState s).log ++ [Eff.turnRun (s.currentTurn + 1)] := by
  simp [turnRanState]

@[simp] lemma turnRanState_isComplete (s : RState) :
    (turnRanState s).isComplete = s.isComplete := by
  simp [turnRanState]

@[simp] lemma turnRanState_currentSpan (s : RState) :
    (turnRanState s).currentSpan = (preTurnState s).currentSpan := by
  simp [turnRanState]

@[simp] lemma turnRanState_currentTurn (s : RState) :
    (turnRanState s).currentTurn = s.currentTurn + 1 := by
  simp [turnRanState]

@[simp] lemma turnRanState_session (s : RState) :
    (turnRanState s).session = s.session := by
  simp [turnRanState]

@[simp] lemma turnRanState_finalOutput (s : RState) :
    (turnRanState s).finalOutput = s.finalOutput := by
  simp [turnRanState]

@[simp] lemma turnOkState_log (s : RState) (em : List TurnEvent) (r : SingleStepResult) :
    (turnOkState s em r).log =
      (preTurnState s).log ++ [Eff.turnRun (s.currentTurn + 1)] ++
        (em.map fun e => Eff.emit (Event.turnEv e)) := by
  simp [turnOkState, afterTurnUpdate]

@[simp] lemma turnOkState_isComplete (s : RState) (em : List TurnEvent) (r : SingleStepResult) :
    (turnOkState s em r).isComplete = s.isComplete := by
  simp [turnOkState, afterTurnUpdate]

@[simp] lemma turnOkState_currentSpan (s : RState) (em : List TurnEvent) (r : SingleStepResult) :
    (turnOkState s em r).currentSpan = (preTurnState s).currentSpan := by
  simp [turnOkState, afterTurnUpdate]

@[simp] lemma turnOkState_currentTurn (s : RState) (em : List TurnEvent) (r : SingleStepResult) :
    (turnOkState s em r).currentTurn = s.currentTurn + 1 := by
  simp [turnOkState, afterTurnUpdate]

@[simp] lemma turnOkState_session (s : RState) (em : List TurnEvent) (r : SingleStepResult) :
    (turnOkState s em r).session = s.session := by
  simp [turnOkState, afterTurnUpdate]

@[simp] lemma turnOkState_finalOutput (s : RState) (em : List TurnEvent) (r : SingleStepResult) :
    (turnOkState s em r).finalOutput = s.finalOutput := by
  simp [turnOkState, afterTurnUpdate]

@[simp] lemma handoffDoneState_log (s : RState) (em : List TurnEvent) (r : SingleStepResult)
    (a : AgentId) :
    (handoffDoneState s em r a).log =
      (doSave (turnOkState s em r) (InputVal.items []) r.new_step_items).log ++
        [Eff.spanFinish, Eff.emit (Event.agentUpdated a)] := by
  simp [handoffDoneState]

@[simp] lemma handoffDoneState_isComplete (s : RState) (em : List TurnEvent)
    (r : SingleStepResult) (a : AgentId) :
    (handoffDoneState s em r a).isComplete = s.isComplete := by
  simp [handoffDoneState]

@[simp] lemma handoffDoneState_currentSpan (s : RState) (em : List TurnEvent)
    (r : SingleStepResult) (a : AgentId) :
    (handoffDoneState s em r a).currentSpan = none := by
  simp [handoffDoneState]

@[simp] lemma handoffDoneState_currentTurn (s : RState) (em : List TurnEvent)
    (r : SingleStepResult) (a : AgentId) :
    (handoffDoneState s em r a).currentTurn = s.currentTurn + 1 := by
  simp [handoffDoneState]

@[simp] lemma handoffDoneState_session (s : RState) (em : List TurnEvent)
    (r : SingleStepResult) (a : AgentId) :
    (handoffDoneState s em r a).session =
      (doSave (turnOkState s em r) (InputVal.items []) r.new_step_items).session := by
  simp [handoffDoneState]

@[simp] lemma handoffDoneState_finalOutput (s : RState) (em : List TurnEvent)
    (r : SingleStepResult) (a : AgentId) :
    (handoffDoneState s em r a).finalOutput = s.finalOutput := by
  simp [handoffDoneState]

@[simp] lemma handoffDoneState_currentAgent (s : RState) (em : List TurnEvent)
    (r : SingleStepResult) (a : AgentId) :
    (handoffDoneState s em r a).currentAgent = a := by
  simp [handoffDoneState]

@[simp] lemma finalDoneState_log (s : RState) (em : List TurnEvent) (r : SingleStepResult)
    (o : Nat) :
    (finalDoneState s em r o).log =
      (doSave (turnOkState s em r) (InputVal.items []) r.new_step_items).log ++
        [Eff.setFinal o, Eff.setComplete, Eff.emit Event.sentinel] := by
  simp [finalDoneState]

@[simp] lemma finalDoneState_isComplete (s : RState) (em : List TurnEvent)
    (r : SingleStepResult) (o : Nat) :
    (finalDoneState s em r o).isComplete = true := by
  simp [finalDoneState]

@[simp] lemma finalDoneState_currentSpan (s : RState) (em : List TurnEvent)
    (r : SingleStepResult) (o : Nat) :
    (finalDoneState s em r o).currentSpan = (preTurnState s).currentSpan := by
  simp [finalDoneState]

@[simp] lemma finalDoneState_currentTurn (s : RState) (em : List TurnEvent)
    (r : SingleStepResult) (o : Nat) :
    (finalDoneState s em r o).currentTurn = s.currentTurn + 1 := by
  simp [finalDoneState]

@[simp] lemma finalDoneState_session (s : RState) (em : List TurnEvent)
    (r : SingleStepResult) (o : Nat) :
    (finalDoneState s em r o).session =
      (doSave (turnOkState s em r) (InputVal.items []) r.new_step_items).session := by
  simp [finalDoneState]

@[simp] lemma finalDoneState_finalOutput (s : RState) (em : List TurnEvent)
    (r : SingleStepResult) (o : Nat) :
    (finalDoneState s em r o).finalOutput = some o := by
  simp [finalDoneState]

@[simp] lemma runAgainDoneState_isComplete (s : RState) (em : List TurnEvent)
    (r : SingleStepResult) :
    (runAgainDoneState s em r).isComplete = s.isComplete := by
  simp [runAgainDoneState]

@[simp] lemma runAgainDoneState_currentSpan (s : RState) (em : List TurnEvent)
    (r : SingleStepResult) :
    (runAgainDoneState s em r).currentSpan = (preTurnState s).currentSpan := by
  simp [runAgainDoneState]

@[simp] lemma runAgainDoneState_currentTurn (s : RState) (em : List TurnEvent)
    (r : SingleStepResult) :
    (runAgainDoneState s em r).currentTurn = s.currentTurn + 1 := by
  simp [runAgainDoneState]

@[simp] lemma runAgainDoneState_finalOutput (s : RState) (em : List TurnEvent)
    (r : SingleStepResult) :
    (runAgainDoneState s em r).finalOutput = s.finalOutput := by
  simp [runAgainDoneState]

lemma runAgainDoneState_log (s : RState) (em : List TurnEvent) (r : SingleStepResult) :
    (runAgainDoneState s em r).log =
      (doSave (turnOkState s em r) (InputVal.items []) r.new_step_items).log := rfl

@[simp] lemma eventsOf_nil : eventsOf [] = [] := rfl

@[simp] lemma eventsOf_cons (e : Eff) (l : List Eff) :
    eventsOf (e :: l) =
      (match e with | Eff.emit ev => [ev] | _ => []) ++ eventsOf l := by
  cases e <;> rfl

@[simp] lemma eventsOf_turnEvents (evs : List TurnEvent) :
    eventsOf (evs.map fun e => Eff.emit (Event.turnEv e)) = evs.map Event.turnEv := by
  induction evs with
  | nil => rfl
  | cons e rest ih => simpa [eventsOf] using ih

lemma sentinel_not_mem_map_turnEv (evs : List TurnEvent) :
    Event.sentinel ∉ evs.map Event.turnEv := by
  intro h
  rcases List.mem_map.mp h with ⟨e, _, heq⟩
  exact absurd heq (by simp)

@[simp] lemma sentinelCount_nil : sentinelCount [] = 0 := rfl

@[simp] lemma sentinelCount_cons (e : Eff) (l : List Eff) :
    sentinelCount (e :: l) =
      (if e = Eff.emit Event.sentinel then 1 else 0) + sentinelCount l := by
  rcases e with ev | x | n | a | _ | _ | _ | _ | _ | o <;>
    first
      | (cases ev <;> simp [sentinelCount, eventsOf, List.count_cons, Nat.add_comm])
      | simp [sentinelCount, eventsOf]

@[simp] lemma spanStartCount_nil : spanStartCount [] = 0 := rfl

@[simp] lemma spanStartCount_cons (e : Eff) (l : List Eff) :
    spanStartCount (e :: l) =
      (match e with | Eff.spanStart _ => 1 | _ => 0) + spanStartCount l := by
  rcases e with ev | x | n | a | _ | _ | _ | _ | _ | o <;>
    simp [spanStartCount, List.countP_cons, Nat.add_comm]

@[simp] lemma spanFinishCount_nil : spanFinishCount [] = 0 := rfl

@[simp] lemma spanFinishCount_cons (e : Eff) (l : List Eff) :
    spanFinishCount (e :: l) =
      (if e = Eff.spanFinish then 1 else 0) + spanFinishCount l := by
  rcases e with ev | x | n | a | _ | _ | _ | _ | _ | o <;>
    simp [spanFinishCount, List.count_cons, Nat.add_comm]

@[simp] lemma traceFinishCount_nil : traceFinishCount [] = 0 := rfl

@[simp] lemma traceFinishCount_cons (e : Eff) (l : List Eff) :
    traceFinishCount (e :: l) =
      (if e = Eff.traceFinish then 1 else 0) + traceFinishCount l := by
  rcases e with ev | x | n | a | _ | _ | _ | _ | _ | o <;>
    simp [traceFinishCount, List.count_cons, Nat.add_comm]

@[simp] lemma agentUpdatedCount_nil : agentUpdatedCount [] = 0 := rfl

@[simp] lemma agentUpdatedCount_cons (e : Eff) (l : List Eff) :
    agentUpdatedCount (e :: l) =
      (match e with | Eff.emit (Event.agentUpdated _) => 1 | _ => 0) +
        agentUpdatedCount l := by
  rcases e with ev | x | n | a | _ | _ | _ | _ | _ | o <;>
    first
      | (cases ev <;> simp [agentUpdatedCount, List.countP_cons, Nat.add_comm])
      | simp [agentUpdatedCount, List.countP_cons, Nat.add_comm]

@[simp] lemma setFinalCount_nil : setFinalCount [] = 0 := rfl

@[simp] lemma setFinalCount_cons (e : Eff) (l : List Eff) :
    setFinalCount (e :: l) =
      (match e with | Eff.setFinal _ => 1 | _ => 0) + setFinalCount l := by
  rcases e with ev | x | n | a | _ | _ | _ | _ | _ | o <;>
    simp [setFinalCount, List.countP_cons, Nat.add_comm]

@[simp] lemma handoffCount_nil (cfg : LoopCfg) : handoffCount cfg [] = 0 := rfl

@[simp] lemma handoffCount_cons (cfg : LoopCfg) (e : Eff) (l : List Eff) :
    handoffCount cfg (e :: l) =
      (match e with
        | Eff.turnRun n => if isHandoffTurn cfg n then 1 else 0
        | _ => 0) + handoffCount cfg l := by
  rcases e with ev | x | n | a | _ | _ | _ | _ | _ | o <;>
    simp [handoffCount, List.countP_cons, Nat.add_comm]

lemma sentinelTail_decomp (l1 l2 : List Event) (h1 : Event.sentinel ∉ l1)
    (h2 : ∀ e ∈ l2, e = Event.sentinel) : sentinelTail (l1 ++ l2) = true :=
  sentinelTail_append_of_free l1 l2 (fun e he heq => h1 (heq ▸ he))
    (sentinelTail_all_sentinel l2 h2)

lemma pair_eq_elim {α β : Type} {a c : α} {b d : β} (h : (a, b) = (c, d)) :
    a = c ∧ b = d :=
  ⟨congrArg Prod.fst h, congrArg Prod.snd h⟩

/-- The save delta of a per-turn session save: empty without a session,
one `save` entry with it (`input_to_new_input_list([]) = []`). -/
lemma doSave_turn_log_cases (sE : RState) (r : SingleStepResult) :
    (doSave sE (InputVal.items []) r.new_step_items).log = sE.log ∨
      (doSave sE (InputVal.items []) r.new_step_items).log =
        sE.log ++ [Eff.save r.new_step_items] := by
  rcases doSave_log_cases sE (InputVal.items []) r.new_step_items with h | h
  · exact Or.inl h
  · right
    simpa [inputToNewInputList] using h

lemma sentinelTail_of_count_zero (l : List Eff) (h : sentinelCount l = 0) :
    sentinelTail (eventsOf l) = true := by
  have hnm : Event.sentinel ∉ eventsOf l := List.count_eq_zero.mp h
  exact sentinelTail_of_no_sentinel _ fun e he heq => hnm (heq ▸ he)

lemma spanOpenBit_congr {s1 s2 : RState} (h : s1.currentSpan = s2.currentSpan) :
    spanOpenBit s1 = spanOpenBit s2 := by
  simp [spanOpenBit, h]

/-- Count bookkeeping across one executed turn followed by its session
save (the common prefix of the handoff, final-output and run-again
branches). -/
lemma doSaveTurnOk_counts (s : RState) (em : List TurnEvent) (r : SingleStepResult) :
    sentinelCount (doSave (turnOkState s em r) (InputVal.items []) r.new_step_items).log =
        sentinelCount s.log ∧
      spanStartCount (doSave (turnOkState s em r) (InputVal.items []) r.new_step_items).log +
          spanOpenBit s =
        spanStartCount s.log + 1 ∧
      spanFinishCount (doSave (turnOkState s em r) (InputVal.items []) r.new_step_items).log =
        spanFinishCount s.log ∧
      traceFinishCount (doSave (turnOkState s em r) (InputVal.items []) r.new_step_items).log =
        traceFinishCount s.log ∧
      setFinalCount (doSave (turnOkState s em r) (InputVal.items []) r.new_step_items).log =
        setFinalCount s.log := by
  rcases doSave_turn_log_cases (turnOkState s em r) r with hdl | hdl <;>
    rcases preTurnState_log_cases s with ⟨hsp, hpl⟩ | ⟨hsp, hpl⟩ <;>
      refine ⟨?_, ?_, ?_, ?_, ?_⟩ <;>
        simp [hdl, hpl, spanOpenBit, hsp, sentinelCount_turnEvents, spanStartCount_turnEvents,
          spanFinishCount_turnEvents, traceFinishCount_turnEvents, setFinalCount_turnEvents]

/-- Turn-run entries reachable through one executed turn and its save. -/
lemma turnRun_mem_doSaveTurnOk (s : RState) (em : List TurnEvent) (r : SingleStepResult)
    (m : Nat)
    (h : Eff.turnRun m ∈ (doSave (turnOkState s em r) (InputVal.items []) r.new_step_items).log) :
    Eff.turnRun m ∈ s.log ∨ m = s.currentTurn + 1 := by
  rcases doSave_turn_log_cases (turnOkState s em r) r with hdl | hdl <;>
    rcases preTurnState_log_cases s with ⟨hsp, hpl⟩ | ⟨hsp, hpl⟩ <;>
      · rw [hdl] at h
        simp [hpl, turnRun_not_mem_turnEvents] at h
        tauto

/-- No span error is generated by an executed turn or its save. -/
lemma spanErr_mem_doSaveTurnOk (s : RState) (em : List TurnEvent) (r : SingleStepResult)
    (h : Eff.spanErr ∈ (doSave (turnOkState s em r) (InputVal.items []) r.new_step_items).log) :
    Eff.spanErr ∈ s.log := by
  rcases doSave_turn_log_cases (turnOkState s em r) r with hdl | hdl <;>
    rcases preTurnState_log_cases s with ⟨hsp, hpl⟩ | ⟨hsp, hpl⟩ <;>
      · rw [hdl] at h
        simp [hpl, spanErr_not_mem_turnEvents] at h
        tauto

/-- The caller-visible events generated by an executed turn and its
save are exactly the turn's own events. -/
lemma eventsOf_doSaveTurnOk (s : RState) (em : List TurnEvent) (r : SingleStepResult) :
    eventsOf (doSave (turnOkState s em r) (InputVal.items []) r.new_step_items).log =
      eventsOf s.log ++ em.map Event.turnEv := by
  rcases doSave_turn_log_cases (turnOkState s em r) r with hdl | hdl <;>
    rcases preTurnState_log_cases s with ⟨hsp, hpl⟩ | ⟨hsp, hpl⟩ <;>
      simp [hdl, hpl]

/-- Master invariant of the streaming loop: from a state whose log has a
sentinel exactly when it is complete, whose event sequence is
sentinel-tailed, whose span actions balance, and which has not finished
the trace, the loop preserves the tail and balance properties, never
runs a turn beyond `max_turns`, enqueues a sentinel on every normal
exit, leaves the completion flag unset on every exceptional exit, and
attaches a span error only on the (normal) max-turns exit. -/
lemma loop_master (cfg : LoopCfg) : ∀ (fuel : Nat) (s s4 : RState) (ex : Option ExnKind),
    loopRunFuel cfg fuel s = (s4, ex) →
    s.currentTurn ≤ cfg.maxTurns →
    cfg.maxTurns + 2 - s.currentTurn ≤ fuel →
    (s.isComplete = false ↔ sentinelCount s.log = 0) →
    sentinelTail (eventsOf s.log) = true →
    spanStartCount s.log = spanFinishCount s.log + spanOpenBit s →
    traceFinishCount s.log = 0 →
    sentinelTail (eventsOf s4.log) = true ∧
      spanStartCount s4.log = spanFinishCount s4.log + spanOpenBit s4 ∧
      traceFinishCount s4.log = 0 ∧
      (ex = none → 1 ≤ sentinelCount s4.log) ∧
      (∀ c, ex = some c → s4.isComplete = false) ∧
      (∀ m, Eff.turnRun m ∈ s4.log → Eff.turnRun m ∈ s.log ∨ m ≤ cfg.maxTurns) ∧
      (Eff.spanErr ∈ s4.log → Eff.spanErr ∈ s.log ∨ ex = none) := by
  intro fuel
  induction fuel with
  | zero =>
    intro s s4 ex hrun hle hfuel hiff htail hspan htr
    exact absurd hfuel (by omega)
  | succ fuel ih =>
    intro s s4 ex hrun hle hfuel hiff htail hspan htr
    rcases loopIter_cases cfg s with
      ⟨hc, hk⟩ | ⟨hc, hd, hk⟩ | ⟨hc, hd, hm, hk⟩ | ⟨c, hc, hd, hm, hs, hk⟩ |
      ⟨emitted, r, a, hc, hd, hm, hs, hn, hc2, hk⟩ |
      ⟨emitted, r, a, hc, hd, hm, hs, hn, hc2, hk⟩ |
      ⟨emitted, r, o, hc, hd, hm, hs, hn, hk⟩ |
      ⟨emitted, r, hc, hd, hm, hs, hn, hc2, hk⟩ |
      ⟨emitted, r, hc, hd, hm, hs, hn, hc2, hk⟩
    · -- cancellation observed at the top-of-loop checkpoint
      rw [loopRunFuel_succ, hk] at hrun
      obtain ⟨h4, hex⟩ := pair_eq_elim
        (show (emitSentinelComplete s, (none : Option ExnKind)) = (s4, ex) from hrun)
      subst h4
      subst hex
      refine ⟨?_, ?_, ?_, ?_, ?_, ?_, ?_⟩
      · rw [emitSentinelComplete_log, eventsOf_append]
        refine sentinelTail_append_sentinels _ _ htail ?_
        intro e he
        simpa using he
      · have hbit : spanOpenBit (emitSentinelComplete s) = spanOpenBit s :=
          spanOpenBit_congr (by simp)
        rw [hbit]
        simp only [emitSentinelComplete_log, spanStartCount_append, spanFinishCount_append]
        simp
        omega
      · simp [htr]
      · intro _
        simp
      · intro c hcon
        exact Option.noConfusion hcon
      · intro m hmem
        rw [emitSentinelComplete_log] at hmem
        rcases List.mem_append.mp hmem with h | h
        · exact Or.inl h
        · simp at h
      · intro hmem
        exact Or.inr rfl
    · -- loop left because the result is already complete
      rw [loopRunFuel_succ, hk] at hrun
      obtain ⟨h4, hex⟩ := pair_eq_elim
        (show (s, (none : Option ExnKind)) = (s4, ex) from hrun)
      subst h4
      subst hex
      have hcnt : 1 ≤ sentinelCount s.log := by
        rcases Nat.eq_zero_or_pos (sentinelCount s.log) with h0 | h0
        · exact absurd (hiff.mpr h0) (by simp [hd])
        · exact h0
      exact ⟨htail, hspan, htr, fun _ => hcnt, fun c hcon => Option.noConfusion hcon,
        fun m hmem => Or.inl hmem, fun hmem => Or.inl hmem⟩
    · -- max turns exceeded
      rw [loopRunFuel_succ, hk] at hrun
      obtain ⟨h4, hex⟩ := pair_eq_elim
        (show (maxBrkState s, (none : Option ExnKind)) = (s4, ex) from hrun)
      subst h4
      subst hex
      rcases preTurnState_log_cases s with ⟨hsp, hpl⟩ | ⟨hsp, hpl⟩
      all_goals refine ⟨?_, ?_, ?_, ?_, ?_, ?_, ?_⟩
      all_goals try
        (intro c hcon
         exact Option.noConfusion hcon)
      all_goals try
        (intro hmem
         exact Or.inr rfl)
      · have hev : eventsOf (maxBrkState s).log = eventsOf s.log ++ [Event.sentinel] := by
          simp [hpl]
        rw [hev]
        refine sentinelTail_append_sentinels _ _ htail ?_
        intro e he
        simpa using he
      · have hbit1 : spanOpenBit (maxBrkState s) = 1 := by simp [spanOpenBit]
        have hbit0 : spanOpenBit s = 1 := by simp [spanOpenBit, hsp]
        rw [hbit1]
        simp [hpl]
        omega
      · simp [hpl, htr]
      · intro _
        simp [hpl]
      · intro m hmem
        simp [hpl] at hmem
        exact Or.inl hmem
      · have hev : eventsOf (maxBrkState s).log = eventsOf s.log ++ [Event.sentinel] := by
          simp [hpl]
        rw [hev]
        refine sentinelTail_append_sentinels _ _ htail ?_
        intro e he
        simpa using he
      · have hbit1 : spanOpenBit (maxBrkState s) = 1 := by simp [spanOpenBit]
        have hbit0 : spanOpenBit s = 0 := by simp [spanOpenBit, hsp]
        rw [hbit1]
        simp [hpl]
        omega
      · simp [hpl, htr]
      · intro _
        simp [hpl]
      · intro m hmem
        simp [hpl] at hmem
        exact Or.inl hmem
    · -- the turn executor raised
      rw [loopRunFuel_succ, hk] at hrun
      obtain ⟨h4, hex⟩ := pair_eq_elim
        (show (turnRanState s, some c) = (s4, ex) from hrun)
      subst h4
      subst hex
      rcases preTurnState_log_cases s with ⟨hsp, hpl⟩ | ⟨hsp, hpl⟩
      all_goals refine ⟨?_, ?_, ?_, ?_, ?_, ?_, ?_⟩
      all_goals try
        (intro hcon
         exact Option.noConfusion hcon)
      · have hev : eventsOf (turnRanState s).log = eventsOf s.log := by simp [hpl]
        rw [hev]
        exact htail
      · have hbit1 : spanOpenBit (turnRanState s) = 1 := by simp [spanOpenBit]
        have hbit0 : spanOpenBit s = 1 := by simp [spanOpenBit, hsp]
        rw [hbit1]
        simp [hpl]
        omega
      · simp [hpl, htr]
      · intro c' hcon
        simp [hd]
      · intro m hmem
        simp [hpl] at hmem
        rcases hmem with h | h
        · exact Or.inl h
        · subst h
          exact Or.inr hm
      · intro hmem
        simp [hpl] at hmem
        exact Or.inl hmem
      · have hev : eventsOf (turnRanState s).log = eventsOf s.log := by simp [hpl]
        rw [hev]
        exact htail
      · have hbit1 : spanOpenBit (turnRanState s) = 1 := by simp [spanOpenBit]
        have hbit0 : spanOpenBit s = 0 := by simp [spanOpenBit, hsp]
        rw [hbit1]
        simp [hpl]
        omega
      · simp [hpl, htr]
      · intro c' hcon
        simp [hd]
      · intro m hmem
        simp [hpl] at hmem
        rcases hmem with h | h
        · exact Or.inl h
        · subst h
          exact Or.inr hm
      · intro hmem
        simp [hpl] at hmem
        exact Or.inl hmem
    · -- handoff, cancellation not observed at the re-check
      rw [loopRunFuel_succ, hk] at hrun
      have hz : sentinelCount s.log = 0 := hiff.mp hd
      obtain ⟨hds, hdsp, hdsf, hdst, hdsfin⟩ := doSaveTurnOk_counts s emitted r
      have hcnt : sentinelCount (handoffDoneState s emitted r a).log = 0 := by
        simp [hds, hz]
      have htail1 : sentinelTail (eventsOf (handoffDoneState s emitted r a).log) = true :=
        sentinelTail_of_count_zero _ hcnt
      have hspan1 : spanStartCount (handoffDoneState s emitted r a).log =
          spanFinishCount (handoffDoneState s emitted r a).log +
            spanOpenBit (handoffDoneState s emitted r a) := by
        have hbit : spanOpenBit (handoffDoneState s emitted r a) = 0 := by
          simp [spanOpenBit]
        rw [hbit]
        simp [hdsp.symm]
        omega
      have hres := ih (handoffDoneState s emitted r a) s4 ex hrun
        (by simpa using hm) (by simp only [handoffDoneState_currentTurn]; omega)
        ⟨fun _ => hcnt, fun _ => by simp [hd]⟩ htail1 hspan1 (by simp [hdst, htr])
      obtain ⟨t1, t2, t3, t4, t5, t6, t7⟩ := hres
      refine ⟨t1, t2, t3, t4, t5, ?_, ?_⟩
      · intro m hmem
        rcases t6 m hmem with h | h
        · rw [handoffDoneState_log] at h
          rcases List.mem_append.mp h with h2 | h2
          · rcases turnRun_mem_doSaveTurnOk s emitted r m h2 with h3 | h3
            · exact Or.inl h3
            · subst h3
              exact Or.inr hm
          · simp at h2
        · exact Or.inr h
      · intro hmem
        rcases t7 hmem with h | h
        · rw [handoffDoneState_log] at h
          rcases List.mem_append.mp h with h2 | h2
          · exact Or.inl (spanErr_mem_doSaveTurnOk s emitted r h2)
          · simp at h2
        · exact Or.inr h
    · -- handoff, cancellation observed at the re-check
      rw [loopRunFuel_succ, hk] at hrun
      obtain ⟨h4, hex⟩ := pair_eq_elim
        (show (emitSentinelComplete (handoffDoneState s emitted r a),
          (none : Option ExnKind)) = (s4, ex) from hrun)
      subst h4
      subst hex
      have hz : sentinelCount s.log = 0 := hiff.mp hd
      obtain ⟨hds, hdsp, hdsf, hdst, hdsfin⟩ := doSaveTurnOk_counts s emitted r
      have hcnt : sentinelCount (handoffDoneState s emitted r a).log = 0 := by
        simp [hds, hz]
      refine ⟨?_, ?_, ?_, ?_, ?_, ?_, ?_⟩
      · rw [emitSentinelComplete_log, eventsOf_append]
        refine sentinelTail_append_sentinels _ _
          (sentinelTail_of_count_zero _ hcnt) ?_
        intro e he
        simpa using he
      · have hbit : spanOpenBit (emitSentinelComplete (handoffDoneState s emitted r a)) = 0 := by
          simp [spanOpenBit]
        rw [hbit]
        simp only [emitSentinelComplete_log, spanStartCount_append, spanFinishCount_append,
          handoffDoneState_log]
        simp
        omega
      · simp [hdst, htr]
      · intro _
        simp
      · intro c hcon
        exact Option.noConfusion hcon
      · intro m hmem
        rw [emitSentinelComplete_log] at hmem
        rcases List.mem_append.mp hmem with h | h
        · rw [handoffDoneState_log] at h
          rcases List.mem_append.mp h with h2 | h2
          · rcases turnRun_mem_doSaveTurnOk s emitted r m h2 with h3 | h3
            · exact Or.inl h3
            · subst h3
              exact Or.inr hm
          · simp at h2
        · simp at h
      · intro hmem
        exact Or.inr rfl
    · -- final output
      rw [loopRunFuel_succ, hk] at hrun
      have hz : sentinelCount s.log = 0 := hiff.mp hd
      obtain ⟨hds, hdsp, hdsf, hdst, hdsfin⟩ := doSaveTurnOk_counts s emitted r
      have hcnt : sentinelCount (finalDoneState s emitted r o).log = sentinelCount s.log + 1 := by
        simp [hds.symm]
      have htail1 : sentinelTail (eventsOf (finalDoneState s emitted r o).log) = true := by
        have hev : eventsOf (finalDoneState s emitted r o).log =
            (eventsOf s.log ++ emitted.map Event.turnEv) ++ [Event.sentinel] := by
          simp [eventsOf_doSaveTurnOk]
        rw [hev]
        refine sentinelTail_decomp _ _ ?_ ?_
        · intro hmm
          rcases List.mem_append.mp hmm with h | h
          · exact List.count_eq_zero.mp hz h
          · exact sentinel_not_mem_map_turnEv emitted h
        · intro e he
          simpa using he
      have hspan1 : spanStartCount (finalDoneState s emitted r o).log =
          spanFinishCount (finalDoneState s emitted r o).log +
            spanOpenBit (finalDoneState s emitted r o) := by
        have hbit : spanOpenBit (finalDoneState s emitted r o) = 1 := by
          simp [spanOpenBit]
        rw [hbit]
        simp [hdsp.symm]
        omega
      have hres := ih (finalDoneState s emitted r o) s4 ex hrun
        (by simpa using hm) (by simp only [finalDoneState_currentTurn]; omega)
        ⟨fun hfalse => by simp at hfalse, fun hzero => by simp [hcnt] at hzero⟩
        htail1 hspan1 (by simp [hdst, htr])
      obtain ⟨t1, t2, t3, t4, t5, t6, t7⟩ := hres
      refine ⟨t1, t2, t3, t4, t5, ?_, ?_⟩
      · intro m hmem
        rcases t6 m hmem with h | h
        · rw [finalDoneState_log] at h
          rcases List.mem_append.mp h with h2 | h2
          · rcases turnRun_mem_doSaveTurnOk s emitted r m h2 with h3 | h3
            · exact Or.inl h3
            · subst h3
              exact Or.inr hm
          · simp at h2
        · exact Or.inr h
      · intro hmem
        rcases t7 hmem with h | h
        · rw [finalDoneState_log] at h
          rcases List.mem_append.mp h with h2 | h2
          · exact Or.inl (spanErr_mem_doSaveTurnOk s emitted r h2)
          · simp at h2
        · exact Or.inr h
    · -- run again, cancellation not observed at the re-check
      rw [loopRunFuel_succ, hk] at hrun
      have hz : sentinelCount s.log = 0 := hiff.mp hd
      obtain ⟨hds, hdsp, hdsf, hdst, hdsfin⟩ := doSaveTurnOk_counts s emitted r
      have hcnt : sentinelCount (runAgainDoneState s emitted r).log = 0 := by
        rw [runAgainDoneState_log]
        simp [hds, hz]
      have htail1 : sentinelTail (eventsOf (runAgainDoneState s emitted r).log) = true :=
        sentinelTail_of_count_zero _ hcnt
      have hspan1 : spanStartCount (runAgainDoneState s emitted r).log =
          spanFinishCount (runAgainDoneState s emitted r).log +
            spanOpenBit (runAgainDoneState s emitted r) := by
        have hbit : spanOpenBit (runAgainDoneState s emitted r) = 1 := by
          simp [spanOpenBit]
        rw [hbit, runAgainDoneState_log]
        omega
      have hres := ih (runAgainDoneState s emitted r) s4 ex hrun
        (by simpa using hm) (by simp only [runAgainDoneState_currentTurn]; omega)
        ⟨fun _ => hcnt, fun _ => by simp [hd]⟩ htail1 hspan1
        (by rw [runAgainDoneState_log]; simp [hdst, htr])
      obtain ⟨t1, t2, t3, t4, t5, t6, t7⟩ := hres
      refine ⟨t1, t2, t3, t4, t5, ?_, ?_⟩
      · intro m hmem
        rcases t6 m hmem with h | h
        · rw [runAgainDoneState_log] at h
          rcases turnRun_mem_doSaveTurnOk s emitted r m h with h3 | h3
          · exact Or.inl h3
          · subst h3
            exact Or.inr hm
        · exact Or.inr h
      · intro hmem
        rcases t7 hmem with h | h
        · rw [runAgainDoneState_log] at h
          exact Or.inl (spanErr_mem_doSaveTurnOk s emitted r h)
        · exact Or.inr h
    · -- run again, cancellation observed at the re-check
      rw [loopRunFuel_succ, hk] at hrun
      obtain ⟨h4, hex⟩ := pair_eq_elim
        (show (emitSentinelComplete (runAgainDoneState s emitted r),
          (none : Option ExnKind)) = (s4, ex) from hrun)
      subst h4
      subst hex
      have hz : sentinelCount s.log = 0 := hiff.mp hd
      obtain ⟨hds, hdsp, hdsf, hdst, hdsfin⟩ := doSaveTurnOk_counts s emitted r
      have hcnt : sentinelCount (runAgainDoneState s emitted r).log = 0 := by
        rw [runAgainDoneState_log]
        simp [hds, hz]
      refine ⟨?_, ?_, ?_, ?_, ?_, ?_, ?_⟩
      · rw [emitSentinelComplete_log, eventsOf_append]
        refine sentinelTail_append_sentinels _ _
          (sentinelTail_of_count_zero _ hcnt) ?_
        intro e he
        simpa using he
      · have hbit : spanOpenBit (emitSentinelComplete (runAgainDoneState s emitted r)) = 1 := by
          simp [spanOpenBit]
        rw [hbit]
        simp only [emitSentinelComplete_log, spanStartCount_append, spanFinishCount_append,
          runAgainDoneState_log]
        simp
        omega
      · rw [emitSentinelComplete_log]
        simp only [traceFinishCount_append, runAgainDoneState_log]
        simp [hdst, htr]
      · intro _
        simp
      · intro c hcon
        exact Option.noConfusion hcon
      · intro m hmem
        rw [emitSentinelComplete_log] at hmem
        rcases List.mem_append.mp hmem with h | h
        · rw [runAgainDoneState_log] at h
          rcases turnRun_mem_doSaveTurnOk s emitted r m h with h3 | h3
          · exact Or.inl h3
          · subst h3
            exact Or.inr hm
        · simp at h
      · intro hmem
        exact Or.inr rfl

/- ### Top-level assembly -/

/-- The state after the pre-try prologue of `_streaming_loop` (trace
start and initial agent-updated event, lines 168-178). -/
def preLoopState (cfg : LoopCfg) : RState :=
  push (if cfg.ownsTrace then push (initialState cfg) Eff.traceStart else initialState cfg)
    (Eff.emit (Event.agentUpdated cfg.startingAgent))

/-- The state at entry of the `while True` loop: prologue, input
preparation and the initial session save (lines 182-188). -/
def startState (cfg : LoopCfg) (prepared : InputVal) : RState :=
  doSave
    { preLoopState cfg with inputVal := prepared, epoch := (preLoopState cfg).epoch + 1 }
    cfg.startingInput []

lemma streamingLoop_eq (cfg : LoopCfg) :
    streamingLoop cfg =
      match prepareInputWithSession cfg.startingInput cfg.session cfg.sessionCallback with
      | Except.error c => (finallyPhase cfg (exceptPhase (preLoopState cfg)), some c)
      | Except.ok prepared =>
        match loopRunFuel cfg (cfg.maxTurns + 2) (startState cfg prepared) with
        | (s4, none) =>
          (finallyPhase cfg (push { s4 with isComplete := true } Eff.setComplete), none)
        | (s4, some c) =>
          if isExceptionClass c then (finallyPhase cfg (exceptPhase s4), some c)
          else (finallyPhase cfg s4, some c) := rfl

/-- Elementary facts about the loop-entry state. -/
lemma startState_facts (cfg : LoopCfg) (p : InputVal) :
    (startState cfg p).isComplete = false ∧
      (startState cfg p).currentTurn = 0 ∧
      (startState cfg p).currentSpan = none ∧
      sentinelCount (startState cfg p).log = 0 ∧
      spanStartCount (startState cfg p).log = 0 ∧
      spanFinishCount (startState cfg p).log = 0 ∧
      traceFinishCount (startState cfg p).log = 0 ∧
      setFinalCount (startState cfg p).log = 0 ∧
      (∀ m, Eff.turnRun m ∉ (startState cfg p).log) ∧
      Eff.spanErr ∉ (startState cfg p).log ∧
      agentUpdatedCount (startState cfg p).log = 1 ∧
      handoffCount cfg (startState cfg p).log = 0 ∧
      eventsOf (startState cfg p).log = [Event.agentUpdated cfg.startingAgent] ∧
      (startState cfg p).session.isSome = cfg.session.isSome ∧
      (startState cfg p).finalOutput = none := by
  cases hot : cfg.ownsTrace <;> cases hses : cfg.session <;>
    simp [startState, preLoopState, initialState, doSave, hot, hses]

/-- Characterization of the `finally` block. -/
lemma finallyPhase_facts (cfg : LoopCfg) (s : RState) :
    (finallyPhase cfg s).log = s.log ++
        ((if s.currentSpan.isSome then [Eff.spanFinish] else []) ++
          (if cfg.ownsTrace then [Eff.traceFinish] else []) ++
          (if s.isComplete then [] else [Eff.setComplete, Eff.emit Event.sentinel])) ∧
      (finallyPhase cfg s).isComplete = true ∧
      (finallyPhase cfg s).currentSpan = none ∧
      (finallyPhase cfg s).finalOutput = s.finalOutput ∧
      (finallyPhase cfg s).currentTurn = s.currentTurn ∧
      (finallyPhase cfg s).session = s.session := by
  cases hsp : s.currentSpan <;> cases hot : cfg.ownsTrace <;> cases hic : s.isComplete <;>
    simp [finallyPhase, hsp, hot, hic]

/-- Master facts about a completed run of the streaming loop, on every
path: the event sequence is sentinel-tailed with at least one sentinel,
the final state is complete, spans balance and no span is left open, the
owned trace is finished exactly once, no turn beyond `max_turns` ever
ran, and a max-turns span error only occurs on a run whose background
task raised nothing. -/
lemma streamingLoop_master (cfg : LoopCfg) :
    sentinelTail (eventsOf (streamingLoop cfg).1.log) = true ∧
      1 ≤ sentinelCount (streamingLoop cfg).1.log ∧
      (streamingLoop cfg).1.isComplete = true ∧
      spanStartCount (streamingLoop cfg).1.log = spanFinishCount (streamingLoop cfg).1.log ∧
      (streamingLoop cfg).1.currentSpan = none ∧
      traceFinishCount (streamingLoop cfg).1.log = (if cfg.ownsTrace then 1 else 0) ∧
      (∀ m, Eff.turnRun m ∈ (streamingLoop cfg).1.log → m ≤ cfg.maxTurns) ∧
      (Eff.spanErr ∈ (streamingLoop cfg).1.log → (streamingLoop cfg).2 = none) := by
  cases hp : prepareInputWithSession cfg.startingInput cfg.session cfg.sessionCallback with
  | error c =>
    have heq : streamingLoop cfg = (finallyPhase cfg (exceptPhase (preLoopState cfg)), some c) := by
      rw [streamingLoop_eq, hp]
    rw [heq]
    cases hot : cfg.ownsTrace <;>
      refine ⟨?_, ?_, ?_, ?_, ?_, ?_, ?_, ?_⟩ <;>
        simp [finallyPhase, exceptPhase, preLoopState, initialState, emitSentinelComplete, push,
          hot, sentinelTail, sentinelCount, eventsOf, spanStartCount, spanFinishCount,
          traceFinishCount, spanOpenBit]
  | ok prepared =>
    obtain ⟨hic0, hct0, hcs0, hsc0, hss0, hsf0, htf0, hsfn0, htr0, hse0, hau0, hhc0,
      hev0, hsn0, hfo0⟩ := startState_facts cfg prepared
    rcases hrun : loopRunFuel cfg (cfg.maxTurns + 2) (startState cfg prepared) with ⟨s4, ex⟩
    have hmid : streamingLoop cfg =
        (match loopRunFuel cfg (cfg.maxTurns + 2) (startState cfg prepared) with
        | (s4, none) =>
          (finallyPhase cfg (push { s4 with isComplete := true } Eff.setComplete), none)
        | (s4, some c) =>
          if isExceptionClass c then (finallyPhase cfg (exceptPhase s4), some c)
          else (finallyPhase cfg s4, some c)) := by
      rw [streamingLoop_eq, hp]
    have hmaster := loop_master cfg (cfg.maxTurns + 2) (startState cfg prepared) s4 ex hrun
      (by omega) (by omega) (by constructor <;> intro <;> simp [hic0, hsc0])
      (sentinelTail_of_count_zero _ hsc0)
      (by simp [hss0, hsf0, spanOpenBit, hcs0]) htf0
    obtain ⟨t1, t2, t3, t4, t5, t6, t7⟩ := hmaster
    cases ex with
    | none =>
      have heq : streamingLoop cfg =
          (finallyPhase cfg (push { s4 with isComplete := true } Eff.setComplete), none) := by
        rw [hmid, hrun]
      rw [heq]
      obtain ⟨hfl, hfc, hfs, hfo, hft, hfe⟩ :=
        finallyPhase_facts cfg (push { s4 with isComplete := true } Eff.setComplete)
      have hfl2 : (finallyPhase cfg (push { s4 with isComplete := true } Eff.setComplete)).log =
          s4.log ++ ([Eff.setComplete] ++
            ((if s4.currentSpan.isSome then [Eff.spanFinish] else []) ++
              (if cfg.ownsTrace then [Eff.traceFinish] else []))) := by
        rw [hfl]
        simp
      have hcnt := t4 rfl
      refine ⟨?_, ?_, hfc, ?_, hfs, ?_, ?_, ?_⟩
      · rw [hfl2, eventsOf_append]
        refine sentinelTail_append_sentinels _ _ t1 ?_
        intro e he
        cases hb1 : s4.currentSpan.isSome <;> cases hb2 : cfg.ownsTrace <;>
          simp [hb1, hb2] at he
      · rw [hfl2]
        simp only [sentinelCount_append]
        omega
      · rw [hfl2]
        simp only [spanStartCount_append, spanFinishCount_append]
        cases hb1 : s4.currentSpan.isSome <;> cases hb2 : cfg.ownsTrace <;>
          · simp [hb1, hb2]
            simp [spanOpenBit, hb1] at t2
            omega
      · rw [hfl2]
        simp only [traceFinishCount_append]
        cases hb1 : s4.currentSpan.isSome <;> cases hb2 : cfg.ownsTrace <;>
          simp [hb1, hb2, t3]
      · intro m hmem
        rw [hfl2] at hmem
        rcases List.mem_append.mp hmem with hmem | hmem
        · rcases t6 m hmem with h | h
          · exact absurd h (htr0 m)
          · exact h
        · cases hb1 : s4.currentSpan.isSome <;> cases hb2 : cfg.ownsTrace <;>
            simp [hb1, hb2] at hmem
      · intro _
        rfl
    | some c =>
      have hns0 : s4.isComplete = false := t5 c rfl
      cases hexc : isExceptionClass c
      · have heq : streamingLoop cfg = (finallyPhase cfg s4, some c) := by
          rw [hmid, hrun]
          show (if isExceptionClass c = true then (finallyPhase cfg (exceptPhase s4), some c)
            else (finallyPhase cfg s4, some c)) = _
          rw [hexc]
          simp
        rw [heq]
        obtain ⟨hfl, hfc, hfs, hfo, hft, hfe⟩ := finallyPhase_facts cfg s4
        have hfl2 : (finallyPhase cfg s4).log =
            s4.log ++ (((if s4.currentSpan.isSome then [Eff.spanFinish] else []) ++
              (if cfg.ownsTrace then [Eff.traceFinish] else [])) ++
              [Eff.setComplete, Eff.emit Event.sentinel]) := by
          rw [hfl]
          simp [hns0]
        refine ⟨?_, ?_, hfc, ?_, hfs, ?_, ?_, ?_⟩
        · rw [hfl2, eventsOf_append]
          refine sentinelTail_append_sentinels _ _ t1 ?_
          intro e he
          cases hb1 : s4.currentSpan.isSome <;> cases hb2 : cfg.ownsTrace <;>
            simp [hb1, hb2] at he <;> simp [he]
        · rw [hfl2]
          simp only [sentinelCount_append]
          cases hb1 : s4.currentSpan.isSome <;> cases hb2 : cfg.ownsTrace <;>
            simp [hb1, hb2]
        · rw [hfl2]
          simp only [spanStartCount_append, spanFinishCount_append]
          cases hb1 : s4.currentSpan.isSome <;> cases hb2 : cfg.ownsTrace <;>
            · simp [hb1, hb2]
              simp [spanOpenBit, hb1] at t2
              omega
        · rw [hfl2]
          simp only [traceFinishCount_append]
          cases hb1 : s4.currentSpan.isSome <;> cases hb2 : cfg.ownsTrace <;>
            simp [hb1, hb2, t3]
        · intro m hmem
          rw [hfl2] at hmem
          rcases List.mem_append.mp hmem with hmem | hmem
          · rcases t6 m hmem with h | h
            · exact absurd h (htr0 m)
            · exact h
          · cases hb1 : s4.currentSpan.isSome <;> cases hb2 : cfg.ownsTrace <;>
              simp [hb1, hb2] at hmem
        · intro hmem
          rw [hfl2] at hmem
          rcases List.mem_append.mp hmem with hmem | hmem
          · rcases t7 hmem with h | h
            · exact absurd h hse0
            · exact absurd h (by simp)
          · cases hb1 : s4.currentSpan.isSome <;> cases hb2 : cfg.ownsTrace <;>
              simp [hb1, hb2] at hmem
      · have heq : streamingLoop cfg = (finallyPhase cfg (exceptPhase s4), some c) := by
          rw [hmid, hrun]
          show (if isExceptionClass c = true then (finallyPhase cfg (exceptPhase s4), some c)
            else (finallyPhase cfg s4, some c)) = _
          rw [hexc]
          simp
        rw [heq]
        obtain ⟨hfl, hfc, hfs, hfo, hft, hfe⟩ := finallyPhase_facts cfg (exceptPhase s4)
        have hfl2 : (finallyPhase cfg (exceptPhase s4)).log =
            s4.log ++ ([Eff.setComplete, Eff.emit Event.sentinel] ++
              ((if s4.currentSpan.isSome then [Eff.spanFinish] else []) ++
                (if cfg.ownsTrace then [Eff.traceFinish] else []))) := by
          rw [hfl]
          simp [exceptPhase]
        refine ⟨?_, ?_, hfc, ?_, hfs, ?_, ?_, ?_⟩
        · rw [hfl2, eventsOf_append]
          refine sentinelTail_append_sentinels _ _ t1 ?_
          intro e he
          cases hb1 : s4.currentSpan.isSome <;> cases hb2 : cfg.ownsTrace <;>
            simp [hb1, hb2] at he <;> simp [he]
        · rw [hfl2]
          simp only [sentinelCount_append]
          simp <;> omega
        · rw [hfl2]
          simp only [spanStartCount_append, spanFinishCount_append]
          cases hb1 : s4.currentSpan.isSome <;> cases hb2 : cfg.ownsTrace <;>
            · simp [hb1, hb2]
              simp [spanOpenBit, hb1] at t2
              omega
        · rw [hfl2]
          simp only [traceFinishCount_append]
          cases hb1 : s4.currentSpan.isSome <;> cases hb2 : cfg.ownsTrace <;>
            simp [hb1, hb2, t3]
        · intro m hmem
          rw [hfl2] at hmem
          rcases List.mem_append.mp hmem with hmem | hmem
          · rcases t6 m hmem with h | h
            · exact absurd h (htr0 m)
            · exact h
          · cases hb1 : s4.currentSpan.isSome <;> cases hb2 : cfg.ownsTrace <;>
              simp [hb1, hb2] at hmem
        · intro hmem
          rw [hfl2] at hmem
          rcases List.mem_append.mp hmem with hmem | hmem
          · rcases t7 hmem with h | h
            · exact absurd h hse0
            · exact absurd h (by simp)
          · cases hb1 : s4.currentSpan.isSome <;> cases hb2 : cfg.ownsTrace <;>
              simp [hb1, hb2] at hmem

/- ### Further transfer lemmas -/

@[simp] lemma doSave_session_isSome (s : RState) (o : InputVal) (ni : List TItem) :
    (doSave s o ni).session.isSome = s.session.isSome := by
  cases h : s.session <;> simp [doSave, h]

@[simp] lemma handoffDoneState_session_isSome (s : RState) (em : List TurnEvent)
    (r : SingleStepResult) (a : AgentId) :
    (handoffDoneState s em r a).session.isSome = s.session.isSome := by
  simp

@[simp] lemma runAgainDoneState_session_isSome (s : RState) (em : List TurnEvent)
    (r : SingleStepResult) :
    (runAgainDoneState s em r).session.isSome = s.session.isSome := by
  simp [runAgainDoneState]

/-- The loop only appends to the log. -/
lemma loop_log_extends (cfg : LoopCfg) : ∀ (fuel : Nat) (s s4 : RState) (ex : Option ExnKind),
    loopRunFuel cfg fuel s = (s4, ex) → ∃ d, s4.log = s.log ++ d := by
  intro fuel
  induction fuel with
  | zero =>
    intro s s4 ex hrun
    obtain ⟨h4, hex⟩ := pair_eq_elim
      (show (s, (none : Option ExnKind)) = (s4, ex) from hrun)
    subst h4
    exact ⟨[], by simp⟩
  | succ fuel ih =>
    intro s s4 ex hrun
    have hext : ∀ s1 : RState, (∃ d1, s1.log = s.log ++ d1) →
        (∃ d, s4.log = s1.log ++ d) → ∃ d, s4.log = s.log ++ d := by
      rintro s1 ⟨d1, h1⟩ ⟨d, h⟩
      exact ⟨d1 ++ d, by rw [h, h1, List.append_assoc]⟩
    have hdsx : ∀ (em : List TurnEvent) (r : SingleStepResult), ∃ dx,
        (doSave (turnOkState s em r) (InputVal.items []) r.new_step_items).log =
          s.log ++ dx := by
      intro em r
      rcases preTurnState_log_cases s with ⟨hsp, hpl⟩ | ⟨hsp, hpl⟩ <;>
        rcases doSave_turn_log_cases (turnOkState s em r) r with hdl | hdl
      · exact ⟨[Eff.turnRun (s.currentTurn + 1)] ++
          (em.map fun e => Eff.emit (Event.turnEv e)), by simp [hdl, hpl]⟩
      · exact ⟨[Eff.turnRun (s.currentTurn + 1)] ++
          (em.map fun e => Eff.emit (Event.turnEv e)) ++ [Eff.save r.new_step_items],
          by simp [hdl, hpl]⟩
      · exact ⟨[Eff.spanStart s.currentAgent, Eff.turnRun (s.currentTurn + 1)] ++
          (em.map fun e => Eff.emit (Event.turnEv e)), by simp [hdl, hpl]⟩
      · exact ⟨[Eff.spanStart s.currentAgent, Eff.turnRun (s.currentTurn + 1)] ++
          (em.map fun e => Eff.emit (Event.turnEv e)) ++ [Eff.save r.new_step_items],
          by simp [hdl, hpl]⟩
    rcases loopIter_cases cfg s with
      ⟨hc, hk⟩ | ⟨hc, hd, hk⟩ | ⟨hc, hd, hm, hk⟩ | ⟨c, hc, hd, hm, hsch, hk⟩ |
      ⟨emitted, r, a, hc, hd, hm, hsch, hn, hc2, hk⟩ |
      ⟨emitted, r, a, hc, hd, hm, hsch, hn, hc2, hk⟩ |
      ⟨emitted, r, o, hc, hd, hm, hsch, hn, hk⟩ |
      ⟨emitted, r, hc, hd, hm, hsch, hn, hc2, hk⟩ |
      ⟨emitted, r, hc, hd, hm, hsch, hn, hc2, hk⟩ <;>
      rw [loopRunFuel_succ, hk] at hrun
    · obtain ⟨h4, hex⟩ := pair_eq_elim
        (show (emitSentinelComplete s, (none : Option ExnKind)) = (s4, ex) from hrun)
      subst h4
      exact ⟨[Eff.setComplete, Eff.emit Event.sentinel], by simp⟩
    · obtain ⟨h4, hex⟩ := pair_eq_elim
        (show (s, (none : Option ExnKind)) = (s4, ex) from hrun)
      subst h4
      exact ⟨[], by simp⟩
    · obtain ⟨h4, hex⟩ := pair_eq_elim
        (show (maxBrkState s, (none : Option ExnKind)) = (s4, ex) from hrun)
      subst h4
      rcases preTurnState_log_cases s with ⟨hsp, hpl⟩ | ⟨hsp, hpl⟩
      · exact ⟨[Eff.spanErr, Eff.emit Event.sentinel], by simp [hpl]⟩
      · exact ⟨[Eff.spanStart s.currentAgent, Eff.spanErr, Eff.emit Event.sentinel],
          by simp [hpl]⟩
    · obtain ⟨h4, hex⟩ := pair_eq_elim
        (show (turnRanState s, some c) = (s4, ex) from hrun)
      subst h4
      rcases preTurnState_log_cases s with ⟨hsp, hpl⟩ | ⟨hsp, hpl⟩
      · exact ⟨[Eff.turnRun (s.currentTurn + 1)], by simp [hpl]⟩
      · exact ⟨[Eff.spanStart s.currentAgent, Eff.turnRun (s.currentTurn + 1)], by simp [hpl]⟩
    · refine hext _ ?_ (ih _ _ _ hrun)
      obtain ⟨dx, hdx⟩ := hdsx emitted r
      exact ⟨dx ++ [Eff.spanFinish, Eff.emit (Event.agentUpdated a)],
        by rw [handoffDoneState_log, hdx, List.append_assoc]⟩
    · obtain ⟨h4, hex⟩ := pair_eq_elim
        (show (emitSentinelComplete (handoffDoneState s emitted r a),
          (none : Option ExnKind)) = (s4, ex) from hrun)
      subst h4
      obtain ⟨dx, hdx⟩ := hdsx emitted r
      exact ⟨dx ++ [Eff.spanFinish, Eff.emit (Event.agentUpdated a)] ++
        [Eff.setComplete, Eff.emit Event.sentinel],
        by rw [emitSentinelComplete_log, handoffDoneState_log, hdx]; simp⟩
    · refine hext _ ?_ (ih _ _ _ hrun)
      obtain ⟨dx, hdx⟩ := hdsx emitted r
      exact ⟨dx ++ [Eff.setFinal o, Eff.setComplete, Eff.emit Event.sentinel],
        by rw [finalDoneState_log, hdx, List.append_assoc]⟩
    · refine hext _ ?_ (ih _ _ _ hrun)
      obtain ⟨dx, hdx⟩ := hdsx emitted r
      exact ⟨dx, by rw [runAgainDoneState_log, hdx]⟩
    · obtain ⟨h4, hex⟩ := pair_eq_elim
        (show (emitSentinelComplete (runAgainDoneState s emitted r),
          (none : Option ExnKind)) = (s4, ex) from hrun)
      subst h4
      obtain ⟨dx, hdx⟩ := hdsx emitted r
      exact ⟨dx ++ [Eff.setComplete, Eff.emit Event.sentinel],
        by rw [emitSentinelComplete_log, runAgainDoneState_log, hdx]; simp⟩

/-- Once the result is complete, the loop performs at most one more
(bookkeeping-only) iteration: either it leaves at the completion check,
or the cancellation checkpoint fires once more and enqueues another
sentinel.  No exception escapes and no turn runs. -/
lemma loop_post_complete (cfg : LoopCfg) (fuel : Nat) (s s4 : RState) (ex : Option ExnKind)
    (hic : s.isComplete = true) (hrun : loopRunFuel cfg fuel s = (s4, ex)) :
    ex = none ∧ (s4 = s ∨ s4 = emitSentinelComplete s) := by
  cases fuel with
  | zero =>
    obtain ⟨h4, hex⟩ := pair_eq_elim
      (show (s, (none : Option ExnKind)) = (s4, ex) from hrun)
    subst h4
    subst hex
    exact ⟨rfl, Or.inl rfl⟩
  | succ fuel =>
    rcases loopIter_cases cfg s with
      ⟨hc, hk⟩ | ⟨hc, hd, hk⟩ | ⟨hc, hd, hm, hk⟩ | ⟨c, hc, hd, hm, hsch, hk⟩ |
      ⟨emitted, r, a, hc, hd, hm, hsch, hn, hc2, hk⟩ |
      ⟨emitted, r, a, hc, hd, hm, hsch, hn, hc2, hk⟩ |
      ⟨emitted, r, o, hc, hd, hm, hsch, hn, hk⟩ |
      ⟨emitted, r, hc, hd, hm, hsch, hn, hc2, hk⟩ |
      ⟨emitted, r, hc, hd, hm, hsch, hn, hc2, hk⟩ <;>
      rw [loopRunFuel_succ, hk] at hrun
    · obtain ⟨h4, hex⟩ := pair_eq_elim
        (show (emitSentinelComplete s, (none : Option ExnKind)) = (s4, ex) from hrun)
      subst h4
      subst hex
      exact ⟨rfl, Or.inr rfl⟩
    · obtain ⟨h4, hex⟩ := pair_eq_elim
        (show (s, (none : Option ExnKind)) = (s4, ex) from hrun)
      subst h4
      subst hex
      exact ⟨rfl, Or.inl rfl⟩
    · exact absurd hic (by simp [hd])
    · exact absurd hic (by simp [hd])
    · exact absurd hic (by simp [hd])
    · exact absurd hic (by simp [hd])
    · exact absurd hic (by simp [hd])
    · exact absurd hic (by simp [hd])
    · exact absurd hic (by simp [hd])

/-- The finally block introduces no turn-run entries. -/
lemma turnRun_mem_finallyPhase (cfg : LoopCfg) (s : RState) (n : Nat) :
    Eff.turnRun n ∈ (finallyPhase cfg s).log ↔ Eff.turnRun n ∈ s.log := by
  obtain ⟨hfl, -, -, -, -, -⟩ := finallyPhase_facts cfg s
  rw [hfl]
  cases h1 : s.currentSpan.isSome <;> cases h2 : cfg.ownsTrace <;> cases h3 : s.isComplete <;>
    simp [h1, h2, h3]

/-- The except clause introduces no turn-run entries. -/
lemma turnRun_mem_exceptPhase (s : RState) (n : Nat) :
    Eff.turnRun n ∈ (exceptPhase s).log ↔ Eff.turnRun n ∈ s.log := by
  simp [exceptPhase]

/-- If an executed turn's scheduled outcome is an exception, the
background task ends with exactly that exception. -/
lemma loop_throws (cfg : LoopCfg) : ∀ (fuel : Nat) (s s4 : RState) (ex : Option ExnKind)
    (n : Nat) (c : ExnKind),
    loopRunFuel cfg fuel s = (s4, ex) →
    Eff.turnRun n ∉ s.log →
    Eff.turnRun n ∈ s4.log →
    cfg.schedule n = TurnOut.throws c →
    ex = some c := by
  intro fuel
  induction fuel with
  | zero =>
    intro s s4 ex n c hrun hnm hm hs
    obtain ⟨h4, hex⟩ := pair_eq_elim
      (show (s, (none : Option ExnKind)) = (s4, ex) from hrun)
    subst h4
    exact absurd hm hnm
  | succ fuel ih =>
    intro s s4 ex n c hrun hnm hm hs
    rcases loopIter_cases cfg s with
      ⟨hc, hk⟩ | ⟨hc, hd, hk⟩ | ⟨hc, hd, hmx, hk⟩ | ⟨c2, hc, hd, hmx, hsch, hk⟩ |
      ⟨emitted, r, a, hc, hd, hmx, hsch, hn, hc2, hk⟩ |
      ⟨emitted, r, a, hc, hd, hmx, hsch, hn, hc2, hk⟩ |
      ⟨emitted, r, o, hc, hd, hmx, hsch, hn, hk⟩ |
      ⟨emitted, r, hc, hd, hmx, hsch, hn, hc2, hk⟩ |
      ⟨emitted, r, hc, hd, hmx, hsch, hn, hc2, hk⟩ <;>
      rw [loopRunFuel_succ, hk] at hrun
    · obtain ⟨h4, hex⟩ := pair_eq_elim
        (show (emitSentinelComplete s, (none : Option ExnKind)) = (s4, ex) from hrun)
      subst h4
      rw [emitSentinelComplete_log] at hm
      rcases List.mem_append.mp hm with h | h
      · exact absurd h hnm
      · simp at h
    · obtain ⟨h4, hex⟩ := pair_eq_elim
        (show (s, (none : Option ExnKind)) = (s4, ex) from hrun)
      subst h4
      exact absurd hm hnm
    · obtain ⟨h4, hex⟩ := pair_eq_elim
        (show (maxBrkState s, (none : Option ExnKind)) = (s4, ex) from hrun)
      subst h4
      rcases preTurnState_log_cases s with ⟨hsp, hpl⟩ | ⟨hsp, hpl⟩ <;>
        · simp [hpl] at hm
          exact absurd hm hnm
    · obtain ⟨h4, hex⟩ := pair_eq_elim
        (show (turnRanState s, some c2) = (s4, ex) from hrun)
      subst h4
      subst hex
      rcases preTurnState_log_cases s with ⟨hsp, hpl⟩ | ⟨hsp, hpl⟩ <;>
        · simp [hpl] at hm
          rcases hm with h | h
          · exact absurd h hnm
          · subst h
            rw [hsch] at hs
            injection hs with h2
            rw [h2]
    · have hne : Eff.turnRun n ∉ (handoffDoneState s emitted r a).log := by
        intro hmem
        rw [handoffDoneState_log] at hmem
        rcases List.mem_append.mp hmem with h | h
        · rcases turnRun_mem_doSaveTurnOk s emitted r n h with h3 | h3
          · exact absurd h3 hnm
          · subst h3
            rw [hsch] at hs
            cases hs
        · simp at h
      exact ih _ _ _ _ _ hrun hne hm hs
    · obtain ⟨h4, hex⟩ := pair_eq_elim
        (show (emitSentinelComplete (handoffDoneState s emitted r a),
          (none : Option ExnKind)) = (s4, ex) from hrun)
      subst h4
      rw [emitSentinelComplete_log] at hm
      rcases List.mem_append.mp hm with h | h
      · rw [handoffDoneState_log] at h
        rcases List.mem_append.mp h with h2 | h2
        · rcases turnRun_mem_doSaveTurnOk s emitted r n h2 with h3 | h3
          · exact absurd h3 hnm
          · subst h3
            rw [hsch] at hs
            cases hs
        · simp at h2
      · simp at h
    · have hne : Eff.turnRun n ∉ (finalDoneState s emitted r o).log := by
        intro hmem
        rw [finalDoneState_log] at hmem
        rcases List.mem_append.mp hmem with h | h
        · rcases turnRun_mem_doSaveTurnOk s emitted r n h with h3 | h3
          · exact absurd h3 hnm
          · subst h3
            rw [hsch] at hs
            cases hs
        · simp at h
      exact ih _ _ _ _ _ hrun hne hm hs
    · have hne : Eff.turnRun n ∉ (runAgainDoneState s emitted r).log := by
        intro hmem
        rw [runAgainDoneState_log] at hmem
        rcases turnRun_mem_doSaveTurnOk s emitted r n hmem with h3 | h3
        · exact absurd h3 hnm
        · subst h3
          rw [hsch] at hs
          cases hs
      exact ih _ _ _ _ _ hrun hne hm hs
    · obtain ⟨h4, hex⟩ := pair_eq_elim
        (show (emitSentinelComplete (runAgainDoneState s emitted r),
          (none : Option ExnKind)) = (s4, ex) from hrun)
      subst h4
      rw [emitSentinelComplete_log] at hm
      rcases List.mem_append.mp hm with h | h
      · rw [runAgainDoneState_log] at h
        rcases turnRun_mem_doSaveTurnOk s emitted r n h with h3 | h3
        · exact absurd h3 hnm
        · subst h3
          rw [hsch] at hs
          cases hs
      · simp at h

/-- Top-level exception propagation: a run whose executed turn `n` was
scheduled to raise ends with exactly that exception surfaced from the
background task. -/
lemma streamingLoop_throws (cfg : LoopCfg) (n : Nat) (c : ExnKind)
    (hs : cfg.schedule n = TurnOut.throws c)
    (hmem : Eff.turnRun n ∈ (streamingLoop cfg).1.log) :
    (streamingLoop cfg).2 = some c := by
  cases hp : prepareInputWithSession cfg.startingInput cfg.session cfg.sessionCallback with
  | error ce =>
    have heq : streamingLoop cfg = (finallyPhase cfg (exceptPhase (preLoopState cfg)), some ce) := by
      rw [streamingLoop_eq, hp]
    rw [heq] at hmem
    rw [turnRun_mem_finallyPhase, turnRun_mem_exceptPhase] at hmem
    cases hot : cfg.ownsTrace <;> simp [preLoopState, initialState, hot] at hmem
  | ok prepared =>
    obtain ⟨hic0, hct0, hcs0, hsc0, hss0, hsf0, htf0, hsfn0, htr0, hse0, hau0, hhc0,
      hev0, hsn0, hfo0⟩ := startState_facts cfg prepared
    rcases hrun : loopRunFuel cfg (cfg.maxTurns + 2) (startState cfg prepared) with ⟨s4, ex⟩
    have hmid : streamingLoop cfg =
        (match loopRunFuel cfg (cfg.maxTurns + 2) (startState cfg prepared) with
        | (s4, none) =>
          (finallyPhase cfg (push { s4 with isComplete := true } Eff.setComplete), none)
        | (s4, some c) =>
          if isExceptionClass c then (finallyPhase cfg (exceptPhase s4), some c)
          else (finallyPhase cfg s4, some c)) := by
      rw [streamingLoop_eq, hp]
    cases ex with
    | none =>
      have heq : streamingLoop cfg =
          (finallyPhase cfg (push { s4 with isComplete := true } Eff.setComplete), none) := by
        rw [hmid, hrun]
      rw [heq] at hmem
      rw [turnRun_mem_finallyPhase] at hmem
      simp only [push_log] at hmem
      rcases List.mem_append.mp hmem with h | h
      · have := loop_throws cfg (cfg.maxTurns + 2) (startState cfg prepared) s4 none n c hrun
          (htr0 n) h hs
        cases this
      · simp at h
    | some c2 =>
      have hc2 : c2 = c := by
        have hmem2 : Eff.turnRun n ∈ s4.log := by
          cases hexc : isExceptionClass c2

          · have heq : streamingLoop cfg = (finallyPhase cfg s4, some c2) := by
              rw [hmid, hrun]
              show (if isExceptionClass c2 = true then (finallyPhase cfg (exceptPhase s4), some c2)
                else (finallyPhase cfg s4, some c2)) = _
              rw [hexc]
              simp
            rw [heq] at hmem
            rwa [turnRun_mem_finallyPhase] at hmem
          · have heq : streamingLoop cfg = (finallyPhase cfg (exceptPhase s4), some c2) := by
              rw [hmid, hrun]
              show (if isExceptionClass c2 = true then (finallyPhase cfg (exceptPhase s4), some c2)
                else (finallyPhase cfg s4, some c2)) = _
              rw [hexc]
              simp
            rw [heq] at hmem
            rw [turnRun_mem_finallyPhase, turnRun_mem_exceptPhase] at hmem
            exact hmem
        have := loop_throws cfg (cfg.maxTurns + 2) (startState cfg prepared) s4 (some c2) n c hrun
          (htr0 n) hmem2 hs
        exact Option.some.inj this
      subst hc2
      cases hexc : isExceptionClass c2
      · have heq : streamingLoop cfg = (finallyPhase cfg s4, some c2) := by
          rw [hmid, hrun]
          show (if isExceptionClass c2 = true then (finallyPhase cfg (exceptPhase s4), some c2)
            else (finallyPhase cfg s4, some c2)) = _
          rw [hexc]
          simp
        rw [heq]
      · have heq : streamingLoop cfg = (finallyPhase cfg (exceptPhase s4), some c2) := by
          rw [hmid, hrun]
          show (if isExceptionClass c2 = true then (finallyPhase cfg (exceptPhase s4), some c2)
            else (finallyPhase cfg s4, some c2)) = _
          rw [hexc]
          simp
        rw [heq]

/- ### Stream-level facts for the single-turn executor -/

lemma foldl_resp_isSome (l : List ModelStreamEvent) (a : Nat) :
    ∃ b, l.foldl (fun acc e => match e with
      | ModelStreamEvent.completed r => some r
      | ModelStreamEvent.delta _ => acc) (some a) = some b := by
  induction l generalizing a with
  | nil => exact ⟨a, rfl⟩
  | cons e rest ih =>
    cases e with
    | delta d => exact ih a
    | completed r => exact ih r

lemma finalResponseOf_none_iff (stream : List ModelStreamEvent) :
    finalResponseOf stream = none ↔ ∀ e ∈ stream, isCompletedEvent e = false := by
  induction stream with
  | nil => simp [finalResponseOf]
  | cons e rest ih =>
    cases e with
    | delta d =>
      constructor
      · intro h x hx
        rcases List.mem_cons.mp hx with h2 | h2
        · subst h2
          rfl
        · exact ih.mp h x h2
      · intro h
        exact ih.mpr fun x hx => h x (by simp [hx])
    | completed r =>
      constructor
      · intro h
        obtain ⟨b, hb⟩ := foldl_resp_isSome rest r
        rw [show finalResponseOf (ModelStreamEvent.completed r :: rest) =
          rest.foldl (fun acc e => match e with
            | ModelStreamEvent.completed r => some r
            | ModelStreamEvent.delta _ => acc) (some r) from rfl, hb] at h
        cases h
      · intro h
        have := h (ModelStreamEvent.completed r) (by simp)
        simp [isCompletedEvent] at this

/- ### The final-output path (claim C1) -/

@[simp] lemma maxBrkState_finalOutput (s : RState) :
    (maxBrkState s).finalOutput = s.finalOutput := by
  simp [maxBrkState]

/-- With a session configured, the per-turn save appends exactly one
`save` entry holding the turn's new items. -/
lemma doSave_turn_log_some (sE : RState) (r : SingleStepResult)
    (h : sE.session.isSome = true) :
    (doSave sE (InputVal.items []) r.new_step_items).log =
      sE.log ++ [Eff.save r.new_step_items] := by
  cases hs : sE.session with
  | none =>
    rw [hs] at h
    cases h
  | some stored =>
    simpa [inputToNewInputList] using
      doSave_log_some sE (InputVal.items []) r.new_step_items stored hs

/-- If a run of the loop ends with `final_output` set, some executed
turn's step result was a final output with exactly that value; the loop
then raised nothing, left the result complete, assigned `final_output`
exactly once, and - with a session configured - recorded that turn's
session save immediately before the `final_output` assignment, the
completion assignment and the sentinel, with no sentinel anywhere
earlier. -/
lemma loop_final (cfg : LoopCfg) : ∀ (fuel : Nat) (s s4 : RState) (ex : Option ExnKind),
    loopRunFuel cfg fuel s = (s4, ex) →
    s.isComplete = false →
    s.finalOutput = none →
    setFinalCount s.log = 0 →
    sentinelCount s.log = 0 →
    ∀ o, s4.finalOutput = some o →
    ∃ n em r, cfg.schedule n = TurnOut.ok em r ∧
      r.next_step = NextStep.finalOutput o ∧
      ex = none ∧
      s4.isComplete = true ∧
      setFinalCount s4.log = 1 ∧
      (s.session.isSome = true →
        ∃ l1 l2, s4.log = l1 ++ Eff.save r.new_step_items :: Eff.setFinal o ::
            Eff.setComplete :: Eff.emit Event.sentinel :: l2 ∧
          Eff.turnRun n ∈ l1 ∧ sentinelCount l1 = 0 ∧
          (l2 = [] ∨ l2 = [Eff.setComplete, Eff.emit Event.sentinel])) := by
  intro fuel
  induction fuel with
  | zero =>
    intro s s4 ex hrun hic hfo hsfc hsc o ho
    obtain ⟨h4, hex⟩ := pair_eq_elim
      (show (s, (none : Option ExnKind)) = (s4, ex) from hrun)
    subst h4
    rw [hfo] at ho
    exact Option.noConfusion ho
  | succ fuel ih =>
    intro s s4 ex hrun hic hfo hsfc hsc o ho
    rcases loopIter_cases cfg s with
      ⟨hc, hk⟩ | ⟨hc, hd, hk⟩ | ⟨hc, hd, hm, hk⟩ | ⟨c, hc, hd, hm, hsch, hk⟩ |
      ⟨emitted, r, a, hc, hd, hm, hsch, hn, hc2, hk⟩ |
      ⟨emitted, r, a, hc, hd, hm, hsch, hn, hc2, hk⟩ |
      ⟨emitted, r, o2, hc, hd, hm, hsch, hn, hk⟩ |
      ⟨emitted, r, hc, hd, hm, hsch, hn, hc2, hk⟩ |
      ⟨emitted, r, hc, hd, hm, hsch, hn, hc2, hk⟩ <;>
      rw [loopRunFuel_succ, hk] at hrun
    · -- cancellation observed at the top-of-loop checkpoint
      obtain ⟨h4, hex⟩ := pair_eq_elim
        (show (emitSentinelComplete s, (none : Option ExnKind)) = (s4, ex) from hrun)
      subst h4
      simp [hfo] at ho
    · -- completion observed
      obtain ⟨h4, hex⟩ := pair_eq_elim
        (show (s, (none : Option ExnKind)) = (s4, ex) from hrun)
      subst h4
      rw [hfo] at ho
      exact Option.noConfusion ho
    · -- max-turns branch
      obtain ⟨h4, hex⟩ := pair_eq_elim
        (show (maxBrkState s, (none : Option ExnKind)) = (s4, ex) from hrun)
      subst h4
      simp [hfo] at ho
    · -- the turn executor raised
      obtain ⟨h4, hex⟩ := pair_eq_elim
        (show (turnRanState s, some c) = (s4, ex) from hrun)
      subst h4
      simp [hfo] at ho
    · -- handoff, cancellation not observed at the re-check
      obtain ⟨hds, hdsp, hdsf, hdst, hdsfin⟩ := doSaveTurnOk_counts s emitted r
      have hres := ih (handoffDoneState s emitted r a) s4 ex hrun
        (by simp [hic]) (by simp [hfo]) (by simp [hdsfin, hsfc]) (by simp [hds, hsc]) o ho
      obtain ⟨n, em2, r2, hA, hB, hC, hD, hE, hF⟩ := hres
      refine ⟨n, em2, r2, hA, hB, hC, hD, hE, ?_⟩
      intro hses
      exact hF (by simp [hses])
    · -- handoff, cancellation observed at the re-check
      obtain ⟨h4, hex⟩ := pair_eq_elim
        (show (emitSentinelComplete (handoffDoneState s emitted r a),
          (none : Option ExnKind)) = (s4, ex) from hrun)
      subst h4
      simp [hfo] at ho
    · -- the final-output branch fired
      have hpc := loop_post_complete cfg fuel (finalDoneState s emitted r o2) s4 ex
        (by simp) hrun
      obtain ⟨hexn, hcase⟩ := hpc
      obtain ⟨hds, hdsp, hdsf, hdst, hdsfin⟩ := doSaveTurnOk_counts s emitted r
      have hds2 : s.session.isSome = true →
          (doSave (turnOkState s emitted r) (InputVal.items []) r.new_step_items).log =
            (turnOkState s emitted r).log ++ [Eff.save r.new_step_items] := fun hses =>
        doSave_turn_log_some _ r (by simp [hses])
      have hmemTR : Eff.turnRun (s.currentTurn + 1) ∈ (turnOkState s emitted r).log := by
        simp
      have hscTO : sentinelCount (turnOkState s emitted r).log = 0 := by
        rcases preTurnState_log_cases s with ⟨hsp, hpl⟩ | ⟨hsp, hpl⟩ <;>
          simp [hpl, hsc, sentinelCount_turnEvents]
      rcases hcase with h4 | h4
      · subst h4
        rw [finalDoneState_finalOutput] at ho
        have ho2 : o2 = o := Option.some.inj ho
        subst ho2
        refine ⟨s.currentTurn + 1, emitted, r, hsch, hn, hexn, by simp, ?_, ?_⟩
        · simp [hdsfin, hsfc]
        · intro hses
          refine ⟨(turnOkState s emitted r).log, [], ?_, hmemTR, hscTO, Or.inl rfl⟩
          rw [finalDoneState_log, hds2 hses]
          simp
      · subst h4
        rw [emitSentinelComplete_finalOutput, finalDoneState_finalOutput] at ho
        have ho2 : o2 = o := Option.some.inj ho
        subst ho2
        refine ⟨s.currentTurn + 1, emitted, r, hsch, hn, hexn, by simp, ?_, ?_⟩
        · simp [hdsfin, hsfc]
        · intro hses
          refine ⟨(turnOkState s emitted r).log,
            [Eff.setComplete, Eff.emit Event.sentinel], ?_, hmemTR, hscTO, Or.inr rfl⟩
          rw [emitSentinelComplete_log, finalDoneState_log, hds2 hses]
          simp
    · -- run-again, cancellation not observed at the re-check
      obtain ⟨hds, hdsp, hdsf, hdst, hdsfin⟩ := doSaveTurnOk_counts s emitted r
      have hres := ih (runAgainDoneState s emitted r) s4 ex hrun
        (by simp [hic]) (by simp [hfo])
        (by rw [runAgainDoneState_log]; simp [hdsfin, hsfc])
        (by rw [runAgainDoneState_log]; simp [hds, hsc]) o ho
      obtain ⟨n, em2, r2, hA, hB, hC, hD, hE, hF⟩ := hres
      refine ⟨n, em2, r2, hA, hB, hC, hD, hE, ?_⟩
      intro hses
      exact hF (by simp [hses])
    · -- run-again, cancellation observed at the re-check
      obtain ⟨h4, hex⟩ := pair_eq_elim
        (show (emitSentinelComplete (runAgainDoneState s emitted r),
          (none : Option ExnKind)) = (s4, ex) from hrun)
      subst h4
      simp [hfo] at ho

/- ### Handoff and span accounting (claim C6) -/

lemma handoffCount_doSaveTurnOk (cfg : LoopCfg) (s : RState) (em : List TurnEvent)
    (r : SingleStepResult) :
    handoffCount cfg (doSave (turnOkState s em r) (InputVal.items []) r.new_step_items).log =
      handoffCount cfg s.log +
        (if isHandoffTurn cfg (s.currentTurn + 1) then 1 else 0) := by
  rcases doSave_turn_log_cases (turnOkState s em r) r with hdl | hdl <;>
    rcases preTurnState_log_cases s with ⟨hsp, hpl⟩ | ⟨hsp, hpl⟩ <;>
      by_cases hht : isHandoffTurn cfg (s.currentTurn + 1) = true <;>
        simp [hdl, hpl, hht, handoffCount_turnEvents]

lemma agentUpdatedCount_doSaveTurnOk (s : RState) (em : List TurnEvent)
    (r : SingleStepResult) :
    agentUpdatedCount (doSave (turnOkState s em r) (InputVal.items []) r.new_step_items).log =
      agentUpdatedCount s.log := by
  rcases doSave_turn_log_cases (turnOkState s em r) r with hdl | hdl <;>
    rcases preTurnState_log_cases s with ⟨hsp, hpl⟩ | ⟨hsp, hpl⟩ <;>
      simp [hdl, hpl, agentUpdatedCount_turnEvents]

/-- Counting invariants of the loop: the number of agent-updated events
stays one more than the number of executed handoff turns, and the
number of spans opened stays the number of executed handoff turns plus
one for the currently open span. -/
lemma loop_c6 (cfg : LoopCfg) : ∀ (fuel : Nat) (s s4 : RState) (ex : Option ExnKind),
    loopRunFuel cfg fuel s = (s4, ex) →
    agentUpdatedCount s.log = 1 + handoffCount cfg s.log →
    spanStartCount s.log = handoffCount cfg s.log + spanOpenBit s →
    agentUpdatedCount s4.log = 1 + handoffCount cfg s4.log ∧
      spanStartCount s4.log = handoffCount cfg s4.log + spanOpenBit s4 := by
  intro fuel
  induction fuel with
  | zero =>
    intro s s4 ex hrun h1 h2
    obtain ⟨h4, hex⟩ := pair_eq_elim
      (show (s, (none : Option ExnKind)) = (s4, ex) from hrun)
    subst h4
    exact ⟨h1, h2⟩
  | succ fuel ih =>
    intro s s4 ex hrun h1 h2
    rcases loopIter_cases cfg s with
      ⟨hc, hk⟩ | ⟨hc, hd, hk⟩ | ⟨hc, hd, hm, hk⟩ | ⟨c, hc, hd, hm, hsch, hk⟩ |
      ⟨emitted, r, a, hc, hd, hm, hsch, hn, hc2, hk⟩ |
      ⟨emitted, r, a, hc, hd, hm, hsch, hn, hc2, hk⟩ |
      ⟨emitted, r, o, hc, hd, hm, hsch, hn, hk⟩ |
      ⟨emitted, r, hc, hd, hm, hsch, hn, hc2, hk⟩ |
      ⟨emitted, r, hc, hd, hm, hsch, hn, hc2, hk⟩ <;>
      rw [loopRunFuel_succ, hk] at hrun
    · -- cancellation observed at the top-of-loop checkpoint
      obtain ⟨h4, hex⟩ := pair_eq_elim
        (show (emitSentinelComplete s, (none : Option ExnKind)) = (s4, ex) from hrun)
      subst h4
      have hbit : spanOpenBit (emitSentinelComplete s) = spanOpenBit s :=
        spanOpenBit_congr (by simp)
      refine ⟨by simp [h1], ?_⟩
      rw [hbit]
      simp [h2]
    · -- completion observed
      obtain ⟨h4, hex⟩ := pair_eq_elim
        (show (s, (none : Option ExnKind)) = (s4, ex) from hrun)
      subst h4
      exact ⟨h1, h2⟩
    · -- max-turns branch
      obtain ⟨h4, hex⟩ := pair_eq_elim
        (show (maxBrkState s, (none : Option ExnKind)) = (s4, ex) from hrun)
      subst h4
      have hbit1 : spanOpenBit (maxBrkState s) = 1 := by simp [spanOpenBit]
      rcases preTurnState_log_cases s with ⟨hsp, hpl⟩ | ⟨hsp, hpl⟩
      · have hbit0 : spanOpenBit s = 1 := by simp [spanOpenBit, hsp]
        rw [hbit0] at h2
        refine ⟨by simp [hpl, h1], ?_⟩
        rw [hbit1]
        simp [hpl]
        omega
      · have hbit0 : spanOpenBit s = 0 := by simp [spanOpenBit, hsp]
        rw [hbit0] at h2
        refine ⟨by simp [hpl, h1], ?_⟩
        rw [hbit1]
        simp [hpl]
        omega
    · -- the turn executor raised
      obtain ⟨h4, hex⟩ := pair_eq_elim
        (show (turnRanState s, some c) = (s4, ex) from hrun)
      subst h4
      have hht : isHandoffTurn cfg (s.currentTurn + 1) = false := by
        simp [isHandoffTurn, hsch]
      have hbit1 : spanOpenBit (turnRanState s) = 1 := by simp [spanOpenBit]
      rcases preTurnState_log_cases s with ⟨hsp, hpl⟩ | ⟨hsp, hpl⟩
      · have hbit0 : spanOpenBit s = 1 := by simp [spanOpenBit, hsp]
        rw [hbit0] at h2
        refine ⟨by simp [hpl, h1, hht], ?_⟩
        rw [hbit1]
        simp [hpl, hht]
        omega
      · have hbit0 : spanOpenBit s = 0 := by simp [spanOpenBit, hsp]
        rw [hbit0] at h2
        refine ⟨by simp [hpl, h1, hht], ?_⟩
        rw [hbit1]
        simp [hpl, hht]
        omega
    · -- handoff, cancellation not observed at the re-check
      obtain ⟨hds, hdsp, hdsf, hdst, hdsfin⟩ := doSaveTurnOk_counts s emitted r
      have hht : isHandoffTurn cfg (s.currentTurn + 1) = true := by
        simp [isHandoffTurn, hsch, hn]
      have hagg : agentUpdatedCount (handoffDoneState s emitted r a).log =
          agentUpdatedCount s.log + 1 := by
        simp [agentUpdatedCount_doSaveTurnOk]
      have hhcg : handoffCount cfg (handoffDoneState s emitted r a).log =
          handoffCount cfg s.log + 1 := by
        simp [handoffCount_doSaveTurnOk, hht]
      have hssg : spanStartCount (handoffDoneState s emitted r a).log + spanOpenBit s =
          spanStartCount s.log + 1 := by
        simpa using hdsp
      have hbit : spanOpenBit (handoffDoneState s emitted r a) = 0 := by
        simp [spanOpenBit]
      exact ih _ _ _ hrun (by rw [hagg, hhcg]; omega) (by rw [hbit, hhcg]; omega)
    · -- handoff, cancellation observed at the re-check
      obtain ⟨h4, hex⟩ := pair_eq_elim
        (show (emitSentinelComplete (handoffDoneState s emitted r a),
          (none : Option ExnKind)) = (s4, ex) from hrun)
      subst h4
      obtain ⟨hds, hdsp, hdsf, hdst, hdsfin⟩ := doSaveTurnOk_counts s emitted r
      have hht : isHandoffTurn cfg (s.currentTurn + 1) = true := by
        simp [isHandoffTurn, hsch, hn]
      have hagg : agentUpdatedCount (handoffDoneState s emitted r a).log =
          agentUpdatedCount s.log + 1 := by
        simp [agentUpdatedCount_doSaveTurnOk]
      have hhcg : handoffCount cfg (handoffDoneState s emitted r a).log =
          handoffCount cfg s.log + 1 := by
        simp [handoffCount_doSaveTurnOk, hht]
      have hssg : spanStartCount (handoffDoneState s emitted r a).log + spanOpenBit s =
          spanStartCount s.log + 1 := by
        simpa using hdsp
      have hbit : spanOpenBit (emitSentinelComplete (handoffDoneState s emitted r a)) = 0 := by
        simp [spanOpenBit]
      have hz1 : agentUpdatedCount [Eff.setComplete, Eff.emit Event.sentinel] = 0 := rfl
      have hz2 : handoffCount cfg [Eff.setComplete, Eff.emit Event.sentinel] = 0 := rfl
      have hz3 : spanStartCount [Eff.setComplete, Eff.emit Event.sentinel] = 0 := rfl
      refine ⟨?_, ?_⟩
      · rw [emitSentinelComplete_log, agentUpdatedCount_append, handoffCount_append,
          hz1, hz2, hagg, hhcg]
        omega
      · rw [hbit, emitSentinelComplete_log, spanStartCount_append, handoffCount_append,
          hz3, hz2, hhcg]
        omega
    · -- final-output branch
      obtain ⟨hds, hdsp, hdsf, hdst, hdsfin⟩ := doSaveTurnOk_counts s emitted r
      have hht : isHandoffTurn cfg (s.currentTurn + 1) = false := by
        simp [isHandoffTurn, hsch, hn]
      have hagg : agentUpdatedCount (finalDoneState s emitted r o).log =
          agentUpdatedCount s.log := by
        simp [agentUpdatedCount_doSaveTurnOk]
      have hhcg : handoffCount cfg (finalDoneState s emitted r o).log =
          handoffCount cfg s.log := by
        simp [handoffCount_doSaveTurnOk, hht]
      have hssg : spanStartCount (finalDoneState s emitted r o).log + spanOpenBit s =
          spanStartCount s.log + 1 := by
        simpa using hdsp
      have hbit : spanOpenBit (finalDoneState s emitted r o) = 1 := by
        simp [spanOpenBit]
      exact ih _ _ _ hrun (by rw [hagg, hhcg]; omega) (by rw [hbit, hhcg]; omega)
    · -- run-again, cancellation not observed at the re-check
      obtain ⟨hds, hdsp, hdsf, hdst, hdsfin⟩ := doSaveTurnOk_counts s emitted r
      have hht : isHandoffTurn cfg (s.currentTurn + 1) = false := by
        simp [isHandoffTurn, hsch, hn]
      have hagg : agentUpdatedCount (runAgainDoneState s emitted r).log =
          agentUpdatedCount s.log := by
        rw [runAgainDoneState_log, agentUpdatedCount_doSaveTurnOk]
      have hhcg : handoffCount cfg (runAgainDoneState s emitted r).log =
          handoffCount cfg s.log := by
        rw [runAgainDoneState_log, handoffCount_doSaveTurnOk]
        simp [hht]
      have hssg : spanStartCount (runAgainDoneState s emitted r).log + spanOpenBit s =
          spanStartCount s.log + 1 := by
        rw [runAgainDoneState_log]
        exact hdsp
      have hbit : spanOpenBit (runAgainDoneState s emitted r) = 1 := by
        simp [spanOpenBit]
      exact ih _ _ _ hrun (by rw [hagg, hhcg]; omega) (by rw [hbit, hhcg]; omega)
    · -- run-again, cancellation observed at the re-check
      obtain ⟨h4, hex⟩ := pair_eq_elim
        (show (emitSentinelComplete (runAgainDoneState s emitted r),
          (none : Option ExnKind)) = (s4, ex) from hrun)
      subst h4
      obtain ⟨hds, hdsp, hdsf, hdst, hdsfin⟩ := doSaveTurnOk_counts s emitted r
      have hht : isHandoffTurn cfg (s.currentTurn + 1) = false := by
        simp [isHandoffTurn, hsch, hn]
      have hagg : agentUpdatedCount (runAgainDoneState s emitted r).log =
          agentUpdatedCount s.log := by
        rw [runAgainDoneState_log, agentUpdatedCount_doSaveTurnOk]
      have hhcg : handoffCount cfg (runAgainDoneState s emitted r).log =
          handoffCount cfg s.log := by
        rw [runAgainDoneState_log, handoffCount_doSaveTurnOk]
        simp [hht]
      have hssg : spanStartCount (runAgainDoneState s emitted r).log + spanOpenBit s =
          spanStartCount s.log + 1 := by
        rw [runAgainDoneState_log]
        exact hdsp
      have hbit : spanOpenBit (emitSentinelComplete (runAgainDoneState s emitted r)) = 1 := by
        simp [spanOpenBit]
      have hz1 : agentUpdatedCount [Eff.setComplete, Eff.emit Event.sentinel] = 0 := rfl
      have hz2 : handoffCount cfg [Eff.setComplete, Eff.emit Event.sentinel] = 0 := rfl
      have hz3 : spanStartCount [Eff.setComplete, Eff.emit Event.sentinel] = 0 := rfl
      refine ⟨?_, ?_⟩
      · rw [emitSentinelComplete_log, agentUpdatedCount_append, handoffCount_append,
          hz1, hz2, hagg, hhcg]
        omega
      · rw [hbit, emitSentinelComplete_log, spanStartCount_append, handoffCount_append,
          hz3, hz2, hhcg]
        omega

/-- The except clause and finally block change none of the C6 counts. -/
lemma c6_counts_exit (cfg : LoopCfg) (s : RState) :
    (agentUpdatedCount (finallyPhase cfg s).log = agentUpdatedCount s.log ∧
      handoffCount cfg (finallyPhase cfg s).log = handoffCount cfg s.log ∧
      spanStartCount (finallyPhase cfg s).log = spanStartCount s.log) ∧
    (agentUpdatedCount (exceptPhase s).log = agentUpdatedCount s.log ∧
      handoffCount cfg (exceptPhase s).log = handoffCount cfg s.log ∧
      spanStartCount (exceptPhase s).log = spanStartCount s.log) := by
  obtain ⟨hfl, -, -, -, -, -⟩ := finallyPhase_facts cfg s
  constructor
  · refine ⟨?_, ?_, ?_⟩ <;>
      · rw [hfl]
        cases hb1 : s.currentSpan.isSome <;> cases hb2 : cfg.ownsTrace <;>
          cases hb3 : s.isComplete <;> simp [hb1, hb2, hb3]
  · refine ⟨by simp [exceptPhase], by simp [exceptPhase], by simp [exceptPhase]⟩

/-- C6 counting facts at the level of the whole run. -/
lemma streamingLoop_c6 (cfg : LoopCfg) :
    agentUpdatedCount (streamingLoop cfg).1.log =
        1 + handoffCount cfg (streamingLoop cfg).1.log ∧
      spanStartCount (streamingLoop cfg).1.log ≤
        1 + handoffCount cfg (streamingLoop cfg).1.log ∧
      handoffCount cfg (streamingLoop cfg).1.log ≤
        spanStartCount (streamingLoop cfg).1.log := by
  cases hp : prepareInputWithSession cfg.startingInput cfg.session cfg.sessionCallback with
  | error c =>
    have heq : streamingLoop cfg =
        (finallyPhase cfg (exceptPhase (preLoopState cfg)), some c) := by
      rw [streamingLoop_eq, hp]
    rw [heq]
    cases hot : cfg.ownsTrace <;>
      refine ⟨?_, ?_, ?_⟩ <;>
        simp [finallyPhase, exceptPhase, preLoopState, initialState, emitSentinelComplete,
          push, hot, agentUpdatedCount, handoffCount, spanStartCount]
  | ok prepared =>
    obtain ⟨hic0, hct0, hcs0, hsc0, hss0, hsf0, htf0, hsfn0, htr0, hse0, hau0, hhc0,
      hev0, hsn0, hfo0⟩ := startState_facts cfg prepared
    rcases hrun : loopRunFuel cfg (cfg.maxTurns + 2) (startState cfg prepared) with ⟨s4, ex⟩
    have hmid : streamingLoop cfg =
        (match loopRunFuel cfg (cfg.maxTurns + 2) (startState cfg prepared) with
        | (s4, none) =>
          (finallyPhase cfg (push { s4 with isComplete := true } Eff.setComplete), none)
        | (s4, some c) =>
          if isExceptionClass c then (finallyPhase cfg (exceptPhase s4), some c)
          else (finallyPhase cfg s4, some c)) := by
      rw [streamingLoop_eq, hp]
    obtain ⟨g1, g2⟩ := loop_c6 cfg (cfg.maxTurns + 2) (startState cfg prepared) s4 ex hrun
      (by rw [hau0, hhc0]) (by rw [hss0, hhc0]; simp [spanOpenBit, hcs0])
    have hbit4 : spanOpenBit s4 ≤ 1 := by
      simp only [spanOpenBit]
      cases s4.currentSpan.isSome <;> simp
    cases ex with
    | none =>
      have heq : streamingLoop cfg =
          (finallyPhase cfg (push { s4 with isComplete := true } Eff.setComplete), none) := by
        rw [hmid, hrun]
      rw [heq]
      obtain ⟨⟨f1, f2, f3⟩, -⟩ :=
        c6_counts_exit cfg (push { s4 with isComplete := true } Eff.setComplete)
      have p1 : agentUpdatedCount (push { s4 with isComplete := true } Eff.setComplete).log =
          agentUpdatedCount s4.log := by simp
      have p2 : handoffCount cfg (push { s4 with isComplete := true } Eff.setComplete).log =
          handoffCount cfg s4.log := by simp
      have p3 : spanStartCount (push { s4 with isComplete := true } Eff.setComplete).log =
          spanStartCount s4.log := by simp
      rw [f1, f2, f3, p1, p2, p3]
      exact ⟨g1, by omega, by omega⟩
    | some c =>
      by_cases hexc : isExceptionClass c = true
      · have heq : streamingLoop cfg = (finallyPhase cfg (exceptPhase s4), some c) := by
          rw [hmid, hrun]
          show (if isExceptionClass c = true then (finallyPhase cfg (exceptPhase s4), some c)
            else (finallyPhase cfg s4, some c)) = _
          rw [hexc]
          simp
        rw [heq]
        obtain ⟨⟨f1, f2, f3⟩, ⟨e1, e2, e3⟩⟩ := c6_counts_exit cfg s4
        obtain ⟨⟨f1x, f2x, f3x⟩, -⟩ := c6_counts_exit cfg (exceptPhase s4)
        rw [f1x, f2x, f3x, e1, e2, e3]
        exact ⟨g1, by omega, by omega⟩
      · have hexcf : isExceptionClass c = false := by simpa using hexc
        have heq : streamingLoop cfg = (finallyPhase cfg s4, some c) := by
          rw [hmid, hrun]
          show (if isExceptionClass c = true then (finallyPhase cfg (exceptPhase s4), some c)
            else (finallyPhase cfg s4, some c)) = _
          rw [hexcf]
          simp
        rw [heq]
        obtain ⟨⟨f1, f2, f3⟩, -⟩ := c6_counts_exit cfg s4
        rw [f1, f2, f3]
        exact ⟨g1, by omega, by omega⟩

/- ### Equivalence with the two-checkpoint loop (claim C5) -/

lemma runTurnPhaseTwoCp_eq (cfg : LoopCfg) (s : RState) :
    runTurnPhaseTwoCp cfg (preTurnState s) =
      if cfg.maxTurns < s.currentTurn + 1 then IterOut.brk (maxBrkState s)
      else
        match cfg.schedule (s.currentTurn + 1) with
        | TurnOut.throws c => IterOut.threw (turnRanState s) c
        | TurnOut.ok emitted r =>
          match r.next_step with
          | NextStep.handoff a =>
            if cfg.cancelOracle (handoffDoneState s emitted r a).epoch then
              IterOut.brk (emitSentinelComplete (handoffDoneState s emitted r a))
            else IterOut.cont (handoffDoneState s emitted r a)
          | NextStep.finalOutput o => IterOut.cont (finalDoneState s emitted r o)
          | NextStep.runAgain => IterOut.cont (runAgainDoneState s emitted r) := by
  unfold runTurnPhaseTwoCp
  simp only [preTurnState_currentTurn]
  rfl

lemma loopRunFuelTwoCp_succ (cfg : LoopCfg) (fuel : Nat) (s : RState) :
    loopRunFuelTwoCp cfg (fuel + 1) s =
      match loopIterTwoCp cfg s with
      | IterOut.brk s1 => (s1, none)
      | IterOut.threw s1 c => (s1, some c)
      | IterOut.cont s1 => loopRunFuelTwoCp cfg fuel s1 := rfl

/-- With enough fuel, the loop of the source and the spec's
two-checkpoint loop compute the same result: the only divergent case is
a cancellation observed at the run-again re-check, where the source
breaks one iteration earlier but - since no await separates the
re-check from the top of the loop - the two-checkpoint loop observes
the very same flag value at the next top-of-loop checkpoint and breaks
with the identical state. -/
lemma loopFuel_twoCp_eq (cfg : LoopCfg) : ∀ (fuel : Nat) (s : RState),
    s.currentTurn ≤ cfg.maxTurns →
    cfg.maxTurns + 2 - s.currentTurn ≤ fuel →
    loopRunFuelTwoCp cfg fuel s = loopRunFuel cfg fuel s := by
  intro fuel
  induction fuel with
  | zero =>
    intro s hle hfuel
    exact absurd hfuel (by omega)
  | succ fuel ih =>
    intro s hle hfuel
    have hiter0 : loopIterTwoCp cfg s =
        (if cfg.cancelOracle s.epoch then IterOut.brk (emitSentinelComplete s)
          else if s.isComplete then IterOut.brk s
          else runTurnPhaseTwoCp cfg (preTurnState s)) := rfl
    rcases loopIter_cases cfg s with
      ⟨hc, hk⟩ | ⟨hc, hd, hk⟩ | ⟨hc, hd, hm, hk⟩ | ⟨c, hc, hd, hm, hsch, hk⟩ |
      ⟨emitted, r, a, hc, hd, hm, hsch, hn, hc2, hk⟩ |
      ⟨emitted, r, a, hc, hd, hm, hsch, hn, hc2, hk⟩ |
      ⟨emitted, r, o, hc, hd, hm, hsch, hn, hk⟩ |
      ⟨emitted, r, hc, hd, hm, hsch, hn, hc2, hk⟩ |
      ⟨emitted, r, hc, hd, hm, hsch, hn, hc2, hk⟩
    · have hk2 : loopIterTwoCp cfg s = IterOut.brk (emitSentinelComplete s) := by
        rw [hiter0, if_pos hc]
      rw [loopRunFuelTwoCp_succ, hk2, loopRunFuel_succ, hk]
    · have hk2 : loopIterTwoCp cfg s = IterOut.brk s := by
        rw [hiter0, if_neg (by simp [hc]), if_pos hd]
      rw [loopRunFuelTwoCp_succ, hk2, loopRunFuel_succ, hk]
    · have e1 : loopIterTwoCp cfg s = runTurnPhaseTwoCp cfg (preTurnState s) := by
        rw [hiter0, if_neg (by simp [hc]), if_neg (by simp [hd])]
      have hk2 : loopIterTwoCp cfg s = IterOut.brk (maxBrkState s) := by
        rw [e1, runTurnPhaseTwoCp_eq, if_pos hm]
      rw [loopRunFuelTwoCp_succ, hk2, loopRunFuel_succ, hk]
    · have e1 : loopIterTwoCp cfg s = runTurnPhaseTwoCp cfg (preTurnState s) := by
        rw [hiter0, if_neg (by simp [hc]), if_neg (by simp [hd])]
      have hk2 : loopIterTwoCp cfg s = IterOut.threw (turnRanState s) c := by
        rw [e1, runTurnPhaseTwoCp_eq, if_neg (by omega), hsch]
      rw [loopRunFuelTwoCp_succ, hk2, loopRunFuel_succ, hk]
    · have e1 : loopIterTwoCp cfg s = runTurnPhaseTwoCp cfg (preTurnState s) := by
        rw [hiter0, if_neg (by simp [hc]), if_neg (by simp [hd])]
      have e2 : loopIterTwoCp cfg s =
          (match r.next_step with
          | NextStep.handoff a2 =>
            if cfg.cancelOracle (handoffDoneState s emitted r a2).epoch then
              IterOut.brk (emitSentinelComplete (handoffDoneState s emitted r a2))
            else IterOut.cont (handoffDoneState s emitted r a2)
          | NextStep.finalOutput o => IterOut.cont (finalDoneState s emitted r o)
          | NextStep.runAgain => IterOut.cont (runAgainDoneState s emitted r)) := by
        rw [e1, runTurnPhaseTwoCp_eq, if_neg (by omega), hsch]
      have e3 : loopIterTwoCp cfg s =
          (if cfg.cancelOracle (handoffDoneState s emitted r a).epoch then
            IterOut.brk (emitSentinelComplete (handoffDoneState s emitted r a))
          else IterOut.cont (handoffDoneState s emitted r a)) := by
        rw [e2, hn]
      have hk2 : loopIterTwoCp cfg s = IterOut.cont (handoffDoneState s emitted r a) := by
        rw [e3, if_neg (by simp [hc2])]
      rw [loopRunFuelTwoCp_succ, hk2, loopRunFuel_succ, hk]
      exact ih _ (by simpa using hm) (by simp only [handoffDoneState_currentTurn]; omega)
    · have e1 : loopIterTwoCp cfg s = runTurnPhaseTwoCp cfg (preTurnState s) := by
        rw [hiter0, if_neg (by simp [hc]), if_neg (by simp [hd])]
      have e2 : loopIterTwoCp cfg s =
          (match r.next_step with
          | NextStep.handoff a2 =>
            if cfg.cancelOracle (handoffDoneState s emitted r a2).epoch then
              IterOut.brk (emitSentinelComplete (handoffDoneState s emitted r a2))
            else IterOut.cont (handoffDoneState s emitted r a2)
          | NextStep.finalOutput o => IterOut.cont (finalDoneState s emitted r o)
          | NextStep.runAgain => IterOut.cont (runAgainDoneState s emitted r)) := by
        rw [e1, runTurnPhaseTwoCp_eq, if_neg (by omega), hsch]
      have e3 : loopIterTwoCp cfg s =
          (if cfg.cancelOracle (handoffDoneState s emitted r a).epoch then
            IterOut.brk (emitSentinelComplete (handoffDoneState s emitted r a))
          else IterOut.cont (handoffDoneState s emitted r a)) := by
        rw [e2, hn]
      have hk2 : loopIterTwoCp cfg s =
          IterOut.brk (emitSentinelComplete (handoffDoneState s emitted r a)) := by
        rw [e3, if_pos hc2]
      rw [loopRunFuelTwoCp_succ, hk2, loopRunFuel_succ, hk]
    · have e1 : loopIterTwoCp cfg s = runTurnPhaseTwoCp cfg (preTurnState s) := by
        rw [hiter0, if_neg (by simp [hc]), if_neg (by simp [hd])]
      have e2 : loopIterTwoCp cfg s =
          (match r.next_step with
          | NextStep.handoff a2 =>
            if cfg.cancelOracle (handoffDoneState s emitted r a2).epoch then
              IterOut.brk (emitSentinelComplete (handoffDoneState s emitted r a2))
            else IterOut.cont (handoffDoneState s emitted r a2)
          | NextStep.finalOutput o2 => IterOut.cont (finalDoneState s emitted r o2)
          | NextStep.runAgain => IterOut.cont (runAgainDoneState s emitted r)) := by
        rw [e1, runTurnPhaseTwoCp_eq, if_neg (by omega), hsch]
      have hk2 : loopIterTwoCp cfg s = IterOut.cont (finalDoneState s emitted r o) := by
        rw [e2, hn]
      rw [loopRunFuelTwoCp_succ, hk2, loopRunFuel_succ, hk]
      exact ih _ (by simpa using hm) (by simp only [finalDoneState_currentTurn]; omega)
    · have e1 : loopIterTwoCp cfg s = runTurnPhaseTwoCp cfg (preTurnState s) := by
        rw [hiter0, if_neg (by simp [hc]), if_neg (by simp [hd])]
      have e2 : loopIterTwoCp cfg s =
          (match r.next_step with
          | NextStep.handoff a2 =>
            if cfg.cancelOracle (handoffDoneState s emitted r a2).epoch then
              IterOut.brk (emitSentinelComplete (handoffDoneState s emitted r a2))
            else IterOut.cont (handoffDoneState s emitted r a2)
          | NextStep.finalOutput o => IterOut.cont (finalDoneState s emitted r o)
          | NextStep.runAgain => IterOut.cont (runAgainDoneState s emitted r)) := by
        rw [e1, runTurnPhaseTwoCp_eq, if_neg (by omega), hsch]
      have hk2 : loopIterTwoCp cfg s = IterOut.cont (runAgainDoneState s emitted r) := by
        rw [e2, hn]
      rw [loopRunFuelTwoCp_succ, hk2, loopRunFuel_succ, hk]
      exact ih _ (by simpa using hm) (by simp only [runAgainDoneState_currentTurn]; omega)
    · -- the divergent case: cancellation observed at the run-again re-check
      have e1 : loopIterTwoCp cfg s = runTurnPhaseTwoCp cfg (preTurnState s) := by
        rw [hiter0, if_neg (by simp [hc]), if_neg (by simp [hd])]
      have e2 : loopIterTwoCp cfg s =
          (match r.next_step with
          | NextStep.handoff a2 =>
            if cfg.cancelOracle (handoffDoneState s emitted r a2).epoch then
              IterOut.brk (emitSentinelComplete (handoffDoneState s emitted r a2))
            else IterOut.cont (handoffDoneState s emitted r a2)
          | NextStep.finalOutput o => IterOut.cont (finalDoneState s emitted r o)
          | NextStep.runAgain => IterOut.cont (runAgainDoneState s emitted r)) := by
        rw [e1, runTurnPhaseTwoCp_eq, if_neg (by omega), hsch]
      have hk2 : loopIterTwoCp cfg s = IterOut.cont (runAgainDoneState s emitted r) := by
        rw [e2, hn]
      rw [loopRunFuelTwoCp_succ, hk2, loopRunFuel_succ, hk]
      cases fuel with
      | zero => exact absurd hfuel (by omega)
      | succ fuel2 =>
        have h0 : loopIterTwoCp cfg (runAgainDoneState s emitted r) =
            (if cfg.cancelOracle (runAgainDoneState s emitted r).epoch then
              IterOut.brk (emitSentinelComplete (runAgainDoneState s emitted r))
            else if (runAgainDoneState s emitted r).isComplete then
              IterOut.brk (runAgainDoneState s emitted r)
            else runTurnPhaseTwoCp cfg (preTurnState (runAgainDoneState s emitted r))) := rfl
        have hk3 : loopIterTwoCp cfg (runAgainDoneState s emitted r) =
            IterOut.brk (emitSentinelComplete (runAgainDoneState s emitted r)) := by
          rw [h0, if_pos hc2]
        show loopRunFuelTwoCp cfg (fuel2 + 1) (runAgainDoneState s emitted r) =
          (emitSentinelComplete (runAgainDoneState s emitted r), none)
        rw [loopRunFuelTwoCp_succ, hk3]

lemma streamingLoopTwoCheckpoint_eq (cfg : LoopCfg) :
    streamingLoopTwoCheckpoint cfg =
      match prepareInputWithSession cfg.startingInput cfg.session cfg.sessionCallback with
      | Except.error c => (finallyPhase cfg (exceptPhase (preLoopState cfg)), some c)
      | Except.ok prepared =>
        match loopRunFuelTwoCp cfg (cfg.maxTurns + 2) (startState cfg prepared) with
        | (s4, none) =>
          (finallyPhase cfg (push { s4 with isComplete := true } Eff.setComplete), none)
        | (s4, some c) =>
          if isExceptionClass c then (finallyPhase cfg (exceptPhase s4), some c)
          else (finallyPhase cfg s4, some c) := rfl

/-- The source loop and the spec's two-checkpoint loop are
observationally identical: same final state, same exception. -/
lemma streamingLoop_eq_twoCp (cfg : LoopCfg) :
    streamingLoop cfg = streamingLoopTwoCheckpoint cfg := by
  cases hp : prepareInputWithSession cfg.startingInput cfg.session cfg.sessionCallback with
  | error c =>
    rw [streamingLoop_eq, streamingLoopTwoCheckpoint_eq, hp]
  | ok prepared =>
    obtain ⟨hic0, hct0, hcs0, hsc0, hss0, hsf0, htf0, hsfn0, htr0, hse0, hau0, hhc0,
      hev0, hsn0, hfo0⟩ := startState_facts cfg prepared
    have hfe := loopFuel_twoCp_eq cfg (cfg.maxTurns + 2) (startState cfg prepared)
      (by rw [hct0]; omega) (by rw [hct0]; omega)
    rw [streamingLoop_eq, streamingLoopTwoCheckpoint_eq, hp]
    show (match loopRunFuel cfg (cfg.maxTurns + 2) (startState cfg prepared) with
      | (s4, none) =>
        (finallyPhase cfg (push { s4 with isComplete := true } Eff.setComplete), none)
      | (s4, some c) =>
        if isExceptionClass c then (finallyPhase cfg (exceptPhase s4), some c)
        else (finallyPhase cfg s4, some c)) =
      (match loopRunFuelTwoCp cfg (cfg.maxTurns + 2) (startState cfg prepared) with
      | (s4, none) =>
        (finallyPhase cfg (push { s4 with isComplete := true } Eff.setComplete), none)
      | (s4, some c) =>
        if isExceptionClass c then (finallyPhase cfg (exceptPhase s4), some c)
        else (finallyPhase cfg s4, some c))
    rw [hfe]

/- ### Concrete run scenarios used as witnesses and counterexamples -/

/-- A step result that requests another turn. -/
def stepRunAgain : SingleStepResult :=
  { original_input := InputVal.str "hi"
    model_response := 1
    new_step_items := [TItem.runItem 2]
    generated_items := [TItem.runItem 2]
    next_step := NextStep.runAgain }

/-- A step result that produces final output `7`. -/
def stepFinal : SingleStepResult :=
  { original_input := InputVal.str "hello"
    model_response := 1
    new_step_items := [TItem.runItem 3]
    generated_items := [TItem.runItem 3]
    next_step := NextStep.finalOutput 7 }

/-- Run that reaches the max-turns limit: one turn allowed, the model
always asks to run again, no cancellation. -/
def cfgMaxTurnsReached : LoopCfg :=
  { maxTurns := 1
    cancelOracle := fun _ => false
    schedule := fun _ => TurnOut.ok [] stepRunAgain
    session := some []
    sessionCallback := none
    startingAgent := 0
    startingInput := InputVal.str "hi"
    ownsTrace := true }

/-- Same scenario as `cfgMaxTurnsReached`, used for the `on_max_turns`
policy claim. -/
def cfgReplyScenario : LoopCfg :=
  { maxTurns := 1
    cancelOracle := fun _ => false
    schedule := fun _ => TurnOut.ok [] stepRunAgain
    session := some []
    sessionCallback := none
    startingAgent := 0
    startingInput := InputVal.str "hi"
    ownsTrace := true }

/-- Run whose first turn produces the final output while the consumer
sets the cancellation flag during that turn: the flag is observed at
epoch 6, the top-of-loop checkpoint right after the final-output
branch. -/
def cfgCancelAfterFinal : LoopCfg :=
  { maxTurns := 3
    cancelOracle := fun e => decide (6 ≤ e)
    schedule := fun _ => TurnOut.ok [TurnEvent.raw 0] stepFinal
    session := some []
    sessionCallback := none
    startingAgent := 0
    startingInput := InputVal.str "hello"
    ownsTrace := true }

/-- Run with a session configured, a list input and no merge callback. -/
def cfgListInput : LoopCfg :=
  { maxTurns := 3
    cancelOracle := fun _ => false
    schedule := fun _ => TurnOut.throws ExnKind.otherExc
    session := some []
    sessionCallback := none
    startingAgent := 0
    startingInput := InputVal.items [TItem.runItem 0]
    ownsTrace := false }

/-- Run whose first turn produces the final output, with no
cancellation. -/
def cfgFinalRun : LoopCfg :=
  { maxTurns := 3
    cancelOracle := fun _ => false
    schedule := fun _ => TurnOut.ok [TurnEvent.raw 0] stepFinal
    session := some []
    sessionCallback := none
    startingAgent := 0
    startingInput := InputVal.str "hello"
    ownsTrace := true }

/-- A state at the top of the loop whose next turn counter exceeds the
one-turn limit. -/
def atLimitState : RState :=
  { log := [Eff.emit (Event.agentUpdated 0)]
    isComplete := false
    finalOutput := none
    newItems := []
    inputVal := InputVal.str "hi"
    rawResponses := []
    currentTurn := 1
    currentAgent := 0
    currentSpan := none
    shouldRunStartHooks := false
    epoch := 0
    session := some [] }

/-- A state in the middle of a run, right at the top of the loop. -/
def midLoopState : RState :=
  { log := []
    isComplete := false
    finalOutput := none
    newItems := []
    inputVal := InputVal.str "hi"
    rawResponses := []
    currentTurn := 0
    currentAgent := 0
    currentSpan := none
    shouldRunStartHooks := true
    epoch := 0
    session := some [] }

/-- Run whose consumer requests cancellation while turn 1 is in flight
(the flag becomes observable at epoch 4, after the turn's session
save). -/
def cfgMidCancel : LoopCfg :=
  { maxTurns := 3
    cancelOracle := fun e => decide (4 ≤ e)
    schedule := fun _ => TurnOut.ok [] stepRunAgain
    session := some []
    sessionCallback := none
    startingAgent := 0
    startingInput := InputVal.str "hi"
    ownsTrace := true }

/-- Run whose first turn raises `ModelBehaviorError`. -/
def cfgModelBehavior : LoopCfg :=
  { maxTurns := 2
    cancelOracle := fun _ => false
    schedule := fun _ => TurnOut.throws ExnKind.modelBehavior
    session := some []
    sessionCallback := none
    startingAgent := 0
    startingInput := InputVal.str "hi"
    ownsTrace := true }

/-- The usage-error path of the loop: with a session, a list input and
no merge callback, the background task fails with `UserError`, but only
after the initial agent-updated event has been enqueued. -/
lemma streamingLoop_userError_path (cfg : LoopCfg) (hist l : List TItem)
    (hses : cfg.session = some hist) (hinp : cfg.startingInput = InputVal.items l)
    (hcb : cfg.sessionCallback = none) :
    (streamingLoop cfg).2 = some ExnKind.userError ∧
      eventsOf (streamingLoop cfg).1.log =
        [Event.agentUpdated cfg.startingAgent, Event.sentinel] ∧
      ∀ n, Eff.turnRun n ∉ (streamingLoop cfg).1.log := by
  have hp : prepareInputWithSession cfg.startingInput cfg.session cfg.sessionCallback =
      Except.error ExnKind.userError := by
    rw [hses, hinp, hcb]
    rfl
  have heq : streamingLoop cfg =
      (finallyPhase cfg (exceptPhase (preLoopState cfg)), some ExnKind.userError) := by
    rw [streamingLoop_eq, hp]
  rw [heq]
  cases hot : cfg.ownsTrace <;>
    refine ⟨rfl, ?_, ?_⟩ <;>
      simp [finallyPhase, exceptPhase, preLoopState, initialState, emitSentinelComplete,
        push, hot, eventsOf]

/- ### Claim theorems -/

/-- C10: handoff resolution is total and silently lossy on malformed
entries: `_get_handoffs` equals an in-order `filterMap` of the
per-entry normalization (so well-formed entries are normalized into
`Handoff` descriptors in order), and an entry that is neither a
`Handoff`, an `Agent`, nor a callable - or a callable whose (awaited)
result is neither - contributes nothing, with no error raised (the
function is total by construction). -/
theorem C10_handoff_resolution_total_lossy {H A : Type} (mk : A → H) :
    (∀ entries : List (HandoffEntry H A),
      getHandoffs mk entries = entries.filterMap (normalizeHandoffEntry mk)) ∧
    (∀ xs ys : List (HandoffEntry H A),
      getHandoffs mk (xs ++ HandoffEntry.notCallableE :: ys) = getHandoffs mk (xs ++ ys)) ∧
    (∀ xs ys : List (HandoffEntry H A),
      getHandoffs mk (xs ++ HandoffEntry.callableE CallableResult.otherR :: ys) =
        getHandoffs mk (xs ++ ys)) := by
  have hchar : ∀ entries : List (HandoffEntry H A),
      getHandoffs mk entries = entries.filterMap (normalizeHandoffEntry mk) := by
    intro entries
    induction entries with
    | nil => rfl
    | cons e rest ih =>
      cases e with
      | handoffE h => simp [getHandoffs, normalizeHandoffEntry, ih]
      | agentE a => simp [getHandoffs, normalizeHandoffEntry, ih]
      | callableE rr => cases rr <;> simp [getHandoffs, normalizeHandoffEntry, ih]
      | notCallableE => simp [getHandoffs, normalizeHandoffEntry, ih]
  refine ⟨hchar, ?_, ?_⟩ <;>
    · intro xs ys
      rw [hchar, hchar]
      simp [normalizeHandoffEntry]

/-- C7: a single turn raises `ModelBehaviorError` if and only if the
model's event stream ends without ever producing a completed-response
event; in that case the on-LLM-end hooks are not invoked and tool
execution is never reached; and a turn whose executor raises
`ModelBehaviorError` propagates it out of the loop to the consumer. -/
theorem C7_behavioral_error_iff_no_completed :
    (∀ stream : List ModelStreamEvent,
      ((runSingleTurnStreamed stream).result = Except.error ExnKind.modelBehavior ↔
        ∀ e ∈ stream, isCompletedEvent e = false) ∧
      ((runSingleTurnStreamed stream).result = Except.error ExnKind.modelBehavior →
        (runSingleTurnStreamed stream).llmEndCalled = false ∧
          (runSingleTurnStreamed stream).toolsExecuted = false)) ∧
    (∀ (cfg : LoopCfg) (n : Nat),
      cfg.schedule n = TurnOut.throws ExnKind.modelBehavior →
      Eff.turnRun n ∈ (streamingLoop cfg).1.log →
      (streamingLoop cfg).2 = some ExnKind.modelBehavior) := by
  constructor
  · intro stream
    constructor
    · cases hf : finalResponseOf stream with
      | none =>
        constructor
        · intro _
          exact (finalResponseOf_none_iff stream).mp hf
        · intro _
          simp [runSingleTurnStreamed, hf]
      | some r =>
        constructor
        · intro habs
          simp [runSingleTurnStreamed, hf] at habs
        · intro hall
          have := (finalResponseOf_none_iff stream).mpr hall
          rw [this] at hf
          cases hf
    · intro h
      cases hf : finalResponseOf stream with
      | none => simp [runSingleTurnStreamed, hf]
      | some r => simp [runSingleTurnStreamed, hf] at h
  · intro cfg n hs hmem
    exact streamingLoop_throws cfg n ExnKind.modelBehavior hs hmem

/-- Witness for C7 at a concrete stream with no completed event and a
concrete run whose first turn raises. -/
theorem C7_witness :
    (runSingleTurnStreamed [ModelStreamEvent.delta 0]).result =
        Except.error ExnKind.modelBehavior ∧
      (runSingleTurnStreamed [ModelStreamEvent.delta 0]).llmEndCalled = false ∧
      (runSingleTurnStreamed [ModelStreamEvent.delta 0]).toolsExecuted = false ∧
      (streamingLoop cfgModelBehavior).2 = some ExnKind.modelBehavior := by
  have h1 := C7_behavioral_error_iff_no_completed.1 [ModelStreamEvent.delta 0]
  have herr : (runSingleTurnStreamed [ModelStreamEvent.delta 0]).result =
      Except.error ExnKind.modelBehavior := h1.1.mpr (by decide)
  have h2 := h1.2 herr
  have h3 := C7_behavioral_error_iff_no_completed.2 cfgModelBehavior 1 rfl (by decide)
  exact ⟨herr, h2.1, h2.2, h3⟩

/-- C2: no turn beyond the configured limit ever executes a model call;
an iteration whose incremented turn counter exceeds the limit leaves
the loop attaching the span error annotation and enqueuing the sentinel
without running a turn and without raising; and whenever the max-turns
span error was attached, the background task raised nothing (the error
is only observed by the consumer), the run is marked complete, and the
last observed event is the terminal sentinel. -/
theorem C2_max_turns_enforced (cfg : LoopCfg) :
    (∀ n, cfg.maxTurns < n → Eff.turnRun n ∉ (streamingLoop cfg).1.log) ∧
    (∀ s : RState, cfg.cancelOracle s.epoch = false → s.isComplete = false →
      cfg.maxTurns < s.currentTurn + 1 →
      loopIter cfg s = IterOut.brk (maxBrkState s) ∧
        (maxBrkState s).log = (preTurnState s).log ++ [Eff.spanErr, Eff.emit Event.sentinel] ∧
        (∀ n, Eff.turnRun n ∈ (maxBrkState s).log → Eff.turnRun n ∈ s.log)) ∧
    (Eff.spanErr ∈ (streamingLoop cfg).1.log →
      (streamingLoop cfg).2 = none ∧
        (streamingLoop cfg).1.isComplete = true ∧
        (eventsOf (streamingLoop cfg).1.log).getLast? = some Event.sentinel) := by
  obtain ⟨t1, t2, t3, t4, t5, t6, t7, t8⟩ := streamingLoop_master cfg
  refine ⟨?_, ?_, ?_⟩
  · intro n hn hmem
    exact absurd (t7 n hmem) (by omega)
  · intro s hc hd hm
    have hiter0 : loopIter cfg s =
        (if cfg.cancelOracle s.epoch then IterOut.brk (emitSentinelComplete s)
          else if s.isComplete then IterOut.brk s
          else runTurnPhase cfg (preTurnState s)) := rfl
    refine ⟨?_, by simp, ?_⟩
    · rw [hiter0, if_neg (by simp [hc]), if_neg (by simp [hd]), runTurnPhase_eq, if_pos hm]
    · intro n hmem
      rcases preTurnState_log_cases s with ⟨hsp, hpl⟩ | ⟨hsp, hpl⟩ <;>
        · simp [hpl] at hmem
          exact hmem
  · intro hmem
    exact ⟨t8 hmem, t3, sentinelTail_last _ t1 (List.count_pos_iff.mp t2)⟩

/-- Witness for C2: the one-turn-limit run attaches the span error,
runs no second turn, raises nothing, and ends with the sentinel; the
max-turns branch is exercised at a concrete over-limit state. -/
theorem C2_witness :
    Eff.spanErr ∈ (streamingLoop cfgMaxTurnsReached).1.log ∧
      Eff.turnRun 2 ∉ (streamingLoop cfgMaxTurnsReached).1.log ∧
      loopIter cfgMaxTurnsReached atLimitState = IterOut.brk (maxBrkState atLimitState) ∧
      ((streamingLoop cfgMaxTurnsReached).2 = none ∧
        (streamingLoop cfgMaxTurnsReached).1.isComplete = true ∧
        (eventsOf (streamingLoop cfgMaxTurnsReached).1.log).getLast? = some Event.sentinel) :=
  ⟨by decide, (C2_max_turns_enforced cfgMaxTurnsReached).1 2 (by decide),
    ((C2_max_turns_enforced cfgMaxTurnsReached).2.1 atLimitState
      (by decide) rfl (by decide)).1,
    (C2_max_turns_enforced cfgMaxTurnsReached).2.2 (by decide)⟩

/-- C4 counterexample: the claim says exactly one terminal sentinel is
enqueued on every exit path, but when the cancellation flag is set
during a final-output turn, the final-output branch enqueues a sentinel
and (since lines 269-275 do not `break`) the top-of-loop cancellation
checkpoint then enqueues a second one. -/
theorem C4_counterexample_duplicate_sentinel :
    sentinelCount (streamingLoop cfgCancelAfterFinal).1.log = 2 := by decide

/-- C4 (amended): on every exit path, normal or abnormal, at least one
terminal sentinel is enqueued and every event after the first sentinel
is again a sentinel (duplicates are possible, e.g. cancellation
observed right after a final-output turn); any open agent span is
finished (span starts and finishes balance and no span is left open),
and the trace owned by the run is finished exactly once. -/
theorem C4_every_exit_finalizes (cfg : LoopCfg) :
    1 ≤ sentinelCount (streamingLoop cfg).1.log ∧
      sentinelTail (eventsOf (streamingLoop cfg).1.log) = true ∧
      (streamingLoop cfg).1.isComplete = true ∧
      (streamingLoop cfg).1.currentSpan = none ∧
      spanFinishCount (streamingLoop cfg).1.log = spanStartCount (streamingLoop cfg).1.log ∧
      traceFinishCount (streamingLoop cfg).1.log = (if cfg.ownsTrace then 1 else 0) := by
  obtain ⟨t1, t2, t3, t4, t5, t6, t7, t8⟩ := streamingLoop_master cfg
  exact ⟨t2, t1, t3, t5, t4.symm, t6⟩

/-- C8 (amended): with a session configured, a list input and no merge
callback, the run fails with a usage error raised inside the background
loop before any turn executes - but only after the initial
agent-updated event has been enqueued, so the event sequence observed
by the consumer is the initial event followed by the terminal sentinel
(the error is not raised synchronously before events are produced);
with a plain-string input the prepared input is the session history
concatenated with the single new input item. -/
theorem C8_usage_error_for_list_input :
    (∀ (cfg : LoopCfg) (hist l : List TItem),
      cfg.session = some hist → cfg.startingInput = InputVal.items l →
      cfg.sessionCallback = none →
      (streamingLoop cfg).2 = some ExnKind.userError ∧
        eventsOf (streamingLoop cfg).1.log =
          [Event.agentUpdated cfg.startingAgent, Event.sentinel] ∧
        (∀ n, Eff.turnRun n ∉ (streamingLoop cfg).1.log)) ∧
    (∀ (str : String) (hist : List TItem),
      prepareInputWithSession (InputVal.str str) (some hist) none =
        Except.ok (InputVal.items (hist ++ [TItem.userMsg str]))) := by
  refine ⟨fun cfg hist l h1 h2 h3 => streamingLoop_userError_path cfg hist l h1 h2 h3, ?_⟩
  intro str hist
  rfl

/-- C8 counterexample: in the failing run the event sequence is not
empty when the usage error surfaces - the initial agent-updated event
was enqueued before the error, refuting "raised synchronously before
the loop starts producing events". -/
theorem C8_counterexample_event_before_error :
    (streamingLoop cfgListInput).2 = some ExnKind.userError ∧
      (streamingLoop cfgListInput).1.log =
        [Eff.emit (Event.agentUpdated 0), Eff.setComplete, Eff.emit Event.sentinel] ∧
      eventsOf (streamingLoop cfgListInput).1.log ≠ [] := by decide

/-- Witness for C8 at the concrete list-input run and a concrete
string-input preparation. -/
theorem C8_witness :
    (streamingLoop cfgListInput).2 = some ExnKind.userError ∧
      eventsOf (streamingLoop cfgListInput).1.log = [Event.agentUpdated 0, Event.sentinel] ∧
      prepareInputWithSession (InputVal.str "hi") (some [TItem.runItem 9]) none =
        Except.ok (InputVal.items [TItem.runItem 9, TItem.userMsg "hi"]) := by
  obtain ⟨h1, h2, h3⟩ :=
    C8_usage_error_for_list_input.1 cfgListInput [] [TItem.runItem 0] rfl rfl rfl
  exact ⟨h1, h2, C8_usage_error_for_list_input.2 "hi" [TItem.runItem 9]⟩

/-- C3 (code bug): `ReactRunnerConfig` declares `on_max_turns = "reply"`
as removing tools and generating one final reply, but neither
`run_streamed` nor `_streaming_loop` ever consults a
`ReactRunnerConfig`: whatever configuration the caller constructs with
the reply policy, the max-turns scenario still attaches the span error,
executes exactly one (not two) turns, and completes without a reply
turn. -/
theorem C3_reply_policy_never_consulted (c : ReactRunnerConfig)
    (hreply : c.on_max_turns = OnMaxTurns.reply) :
    Eff.spanErr ∈ (streamingLoop cfgReplyScenario).1.log ∧
      (streamingLoop cfgReplyScenario).1.log.countP
        (fun e => match e with | Eff.turnRun _ => true | _ => false) = 1 ∧
      Eff.turnRun 2 ∉ (streamingLoop cfgReplyScenario).1.log ∧
      (streamingLoop cfgReplyScenario).2 = none :=
  ⟨by decide, by decide, by decide, by decide⟩

/-- Witness for C3 at a concrete reply-policy configuration. -/
theorem C3_witness :
    (ReactRunnerConfig.mk 10 OnMaxTurns.reply).on_max_turns = OnMaxTurns.reply ∧
      (Eff.spanErr ∈ (streamingLoop cfgReplyScenario).1.log ∧
        (streamingLoop cfgReplyScenario).1.log.countP
          (fun e => match e with | Eff.turnRun _ => true | _ => false) = 1 ∧
        Eff.turnRun 2 ∉ (streamingLoop cfgReplyScenario).1.log ∧
        (streamingLoop cfgReplyScenario).2 = none) :=
  ⟨rfl, C3_reply_policy_never_consulted (ReactRunnerConfig.mk 10 OnMaxTurns.reply) rfl⟩

/-- C1: whenever a run of the streaming loop ends with `final_output`
set, the run terminated because some executed turn's step result was a
final output with exactly that value; the loop raised nothing,
`is_complete` is true, `final_output` was assigned exactly once, the
turn's new items were persisted to the session (when one is configured)
before the completion assignment and before any sentinel, and the last
observed event is the terminal sentinel. -/
theorem C1_final_output_termination (cfg : LoopCfg) (o : Nat)
    (hfin : (streamingLoop cfg).1.finalOutput = some o) :
    ∃ n em r, cfg.schedule n = TurnOut.ok em r ∧
      r.next_step = NextStep.finalOutput o ∧
      (streamingLoop cfg).2 = none ∧
      (streamingLoop cfg).1.isComplete = true ∧
      setFinalCount (streamingLoop cfg).1.log = 1 ∧
      (cfg.session.isSome = true →
        ∃ l1 l2, (streamingLoop cfg).1.log =
            l1 ++ Eff.save r.new_step_items :: Eff.setFinal o :: Eff.setComplete ::
              Eff.emit Event.sentinel :: l2 ∧
          Eff.turnRun n ∈ l1 ∧ sentinelCount l1 = 0) ∧
      (eventsOf (streamingLoop cfg).1.log).getLast? = some Event.sentinel := by
  obtain ⟨t1, t2, t3, t4, t5, t6, t7, t8⟩ := streamingLoop_master cfg
  have hlast : (eventsOf (streamingLoop cfg).1.log).getLast? = some Event.sentinel :=
    sentinelTail_last _ t1 (List.count_pos_iff.mp t2)
  cases hp : prepareInputWithSession cfg.startingInput cfg.session cfg.sessionCallback with
  | error c =>
    exfalso
    have heq : streamingLoop cfg =
        (finallyPhase cfg (exceptPhase (preLoopState cfg)), some c) := by
      rw [streamingLoop_eq, hp]
    rw [heq] at hfin
    rw [(finallyPhase_facts cfg (exceptPhase (preLoopState cfg))).2.2.2.1] at hfin
    cases hot : cfg.ownsTrace <;>
      simp [exceptPhase, preLoopState, initialState, hot] at hfin
  | ok prepared =>
    obtain ⟨hic0, hct0, hcs0, hsc0, hss0, hsf0, htf0, hsfn0, htr0, hse0, hau0, hhc0,
      hev0, hsn0, hfo0⟩ := startState_facts cfg prepared
    rcases hrun : loopRunFuel cfg (cfg.maxTurns + 2) (startState cfg prepared) with ⟨s4, ex⟩
    have hmid : streamingLoop cfg =
        (match loopRunFuel cfg (cfg.maxTurns + 2) (startState cfg prepared) with
        | (s4, none) =>
          (finallyPhase cfg (push { s4 with isComplete := true } Eff.setComplete), none)
        | (s4, some c) =>
          if isExceptionClass c then (finallyPhase cfg (exceptPhase s4), some c)
          else (finallyPhase cfg s4, some c)) := by
      rw [streamingLoop_eq, hp]
    cases ex with
    | some c =>
      exfalso
      have hfo4 : s4.finalOutput = some o := by
        by_cases hexc : isExceptionClass c = true
        · have heq : streamingLoop cfg = (finallyPhase cfg (exceptPhase s4), some c) := by
            rw [hmid, hrun]
            show (if isExceptionClass c = true then (finallyPhase cfg (exceptPhase s4), some c)
              else (finallyPhase cfg s4, some c)) = _
            rw [hexc]
            simp
          rw [heq] at hfin
          rw [(finallyPhase_facts cfg (exceptPhase s4)).2.2.2.1] at hfin
          simpa [exceptPhase] using hfin
        · have hexcf : isExceptionClass c = false := by simpa using hexc
          have heq : streamingLoop cfg = (finallyPhase cfg s4, some c) := by
            rw [hmid, hrun]
            show (if isExceptionClass c = true then (finallyPhase cfg (exceptPhase s4), some c)
              else (finallyPhase cfg s4, some c)) = _
            rw [hexcf]
            simp
          rw [heq] at hfin
          rw [(finallyPhase_facts cfg s4).2.2.2.1] at hfin
          exact hfin
      obtain ⟨n, em, r, -, -, hC, -, -, -⟩ := loop_final cfg (cfg.maxTurns + 2)
        (startState cfg prepared) s4 (some c) hrun hic0 hfo0 hsfn0 hsc0 o hfo4
      exact Option.noConfusion hC
    | none =>
      have heq : streamingLoop cfg =
          (finallyPhase cfg (push { s4 with isComplete := true } Eff.setComplete), none) := by
        rw [hmid, hrun]
      obtain ⟨hfl, hfc, hfs, hffo, hft, hfe⟩ :=
        finallyPhase_facts cfg (push { s4 with isComplete := true } Eff.setComplete)
      have hfl2 : (finallyPhase cfg (push { s4 with isComplete := true } Eff.setComplete)).log =
          s4.log ++ ([Eff.setComplete] ++
            ((if s4.currentSpan.isSome then [Eff.spanFinish] else []) ++
              (if cfg.ownsTrace then [Eff.traceFinish] else []))) := by
        rw [hfl]
        simp
      have hfo4 : s4.finalOutput = some o := by
        rw [heq] at hfin
        rw [hffo] at hfin
        simpa using hfin
      obtain ⟨n, em, r, hA, hB, -, -, hE, hF⟩ := loop_final cfg (cfg.maxTurns + 2)
        (startState cfg prepared) s4 none hrun hic0 hfo0 hsfn0 hsc0 o hfo4
      refine ⟨n, em, r, hA, hB, by rw [heq], t3, ?_, ?_, hlast⟩
      · rw [heq]
        show setFinalCount (finallyPhase cfg
          (push { s4 with isComplete := true } Eff.setComplete)).log = 1
        rw [hfl2]
        simp only [setFinalCount_append]
        cases hb1 : s4.currentSpan.isSome <;> cases hb2 : cfg.ownsTrace <;>
          simp [hb1, hb2, hE]
      · intro hses
        obtain ⟨l1, l2, hdec, hmem, hl1, -⟩ := hF (by rw [hsn0]; exact hses)
        refine ⟨l1, l2 ++ ([Eff.setComplete] ++
          ((if s4.currentSpan.isSome then [Eff.spanFinish] else []) ++
            (if cfg.ownsTrace then [Eff.traceFinish] else []))), ?_, hmem, hl1⟩
        rw [heq]
        show (finallyPhase cfg (push { s4 with isComplete := true } Eff.setComplete)).log = _
        rw [hfl2, hdec]
        simp

/-- Witness for C1 at a concrete run whose first turn yields final
output `7`. -/
theorem C1_witness :
    (streamingLoop cfgFinalRun).1.finalOutput = some 7 ∧
      (∃ n em r, cfgFinalRun.schedule n = TurnOut.ok em r ∧
        r.next_step = NextStep.finalOutput 7 ∧
        (streamingLoop cfgFinalRun).2 = none ∧
        (streamingLoop cfgFinalRun).1.isComplete = true ∧
        setFinalCount (streamingLoop cfgFinalRun).1.log = 1 ∧
        (cfgFinalRun.session.isSome = true →
          ∃ l1 l2, (streamingLoop cfgFinalRun).1.log =
              l1 ++ Eff.save r.new_step_items :: Eff.setFinal 7 :: Eff.setComplete ::
                Eff.emit Event.sentinel :: l2 ∧
            Eff.turnRun n ∈ l1 ∧ sentinelCount l1 = 0) ∧
        (eventsOf (streamingLoop cfgFinalRun).1.log).getLast? = some Event.sentinel) :=
  ⟨by decide, C1_final_output_termination cfgFinalRun 7 (by decide)⟩

/-- C5: cancellation is equivalent to being honoured only at the spec's
two checkpoints (top of loop, after a handoff) - the extra re-check in
the run-again branch is observationally redundant because no await
separates it from the next top-of-loop check - and a cancellation that
becomes visible while a turn is in flight never truncates that turn:
the turn runs, its step result is computed, and its new items are saved
to the session before `is_complete` is set and the sentinel is
enqueued. -/
theorem C5_cancellation_checkpoints :
    (∀ cfg : LoopCfg, streamingLoop cfg = streamingLoopTwoCheckpoint cfg) ∧
    (∀ (cfg : LoopCfg) (s : RState) (emitted : List TurnEvent) (r : SingleStepResult),
      cfg.cancelOracle s.epoch = false → s.isComplete = false →
      s.currentTurn + 1 ≤ cfg.maxTurns →
      cfg.schedule (s.currentTurn + 1) = TurnOut.ok emitted r →
      r.next_step = NextStep.runAgain →
      cfg.cancelOracle (runAgainDoneState s emitted r).epoch = true →
      s.session.isSome = true →
      loopIter cfg s = IterOut.brk (emitSentinelComplete (runAgainDoneState s emitted r)) ∧
        ∃ l1, (emitSentinelComplete (runAgainDoneState s emitted r)).log =
            s.log ++ l1 ++ Eff.save r.new_step_items ::
              [Eff.setComplete, Eff.emit Event.sentinel] ∧
          Eff.turnRun (s.currentTurn + 1) ∈ l1) := by
  refine ⟨streamingLoop_eq_twoCp, ?_⟩
  intro cfg s emitted r hc hd hm hsch hn hc2 hses
  have hds2 : (doSave (turnOkState s emitted r) (InputVal.items []) r.new_step_items).log =
      (turnOkState s emitted r).log ++ [Eff.save r.new_step_items] :=
    doSave_turn_log_some _ r (by simp [hses])
  constructor
  · have hiter0 : loopIter cfg s =
        (if cfg.cancelOracle s.epoch then IterOut.brk (emitSentinelComplete s)
          else if s.isComplete then IterOut.brk s
          else runTurnPhase cfg (preTurnState s)) := rfl
    have e1 : loopIter cfg s = runTurnPhase cfg (preTurnState s) := by
      rw [hiter0, if_neg (by simp [hc]), if_neg (by simp [hd])]
    have e2 : loopIter cfg s =
        (match r.next_step with
        | NextStep.handoff a =>
          if cfg.cancelOracle (handoffDoneState s emitted r a).epoch then
            IterOut.brk (emitSentinelComplete (handoffDoneState s emitted r a))
          else IterOut.cont (handoffDoneState s emitted r a)
        | NextStep.finalOutput o => IterOut.cont (finalDoneState s emitted r o)
        | NextStep.runAgain =>
          if cfg.cancelOracle (runAgainDoneState s emitted r).epoch then
            IterOut.brk (emitSentinelComplete (runAgainDoneState s emitted r))
          else IterOut.cont (runAgainDoneState s emitted r)) := by
      rw [e1, runTurnPhase_eq, if_neg (by omega), hsch]
    have e3 : loopIter cfg s =
        (if cfg.cancelOracle (runAgainDoneState s emitted r).epoch then
          IterOut.brk (emitSentinelComplete (runAgainDoneState s emitted r))
        else IterOut.cont (runAgainDoneState s emitted r)) := by
      rw [e2, hn]
    rw [e3, if_pos hc2]
  · rcases preTurnState_log_cases s with ⟨hsp, hpl⟩ | ⟨hsp, hpl⟩
    · refine ⟨[Eff.turnRun (s.currentTurn + 1)] ++
        (emitted.map fun e => Eff.emit (Event.turnEv e)), ?_, by simp⟩
      rw [emitSentinelComplete_log, runAgainDoneState_log, hds2, turnOkState_log, hpl]
      simp
    · refine ⟨[Eff.spanStart s.currentAgent, Eff.turnRun (s.currentTurn + 1)] ++
        (emitted.map fun e => Eff.emit (Event.turnEv e)), ?_, by simp⟩
      rw [emitSentinelComplete_log, runAgainDoneState_log, hds2, turnOkState_log, hpl]
      simp

/-- Witness for C5 at a concrete run and a concrete mid-run state whose
cancellation flag becomes visible right after a run-again turn's
save. -/
theorem C5_witness :
    streamingLoop cfgMidCancel = streamingLoopTwoCheckpoint cfgMidCancel ∧
      loopIter cfgMidCancel midLoopState =
        IterOut.brk (emitSentinelComplete
          (runAgainDoneState midLoopState [] stepRunAgain)) ∧
      (∃ l1, (emitSentinelComplete (runAgainDoneState midLoopState [] stepRunAgain)).log =
          midLoopState.log ++ l1 ++ Eff.save stepRunAgain.new_step_items ::
            [Eff.setComplete, Eff.emit Event.sentinel] ∧
        Eff.turnRun (midLoopState.currentTurn + 1) ∈ l1) := by
  obtain ⟨w1, w2⟩ := C5_cancellation_checkpoints.2 cfgMidCancel midLoopState [] stepRunAgain
    (by decide) rfl (by decide) rfl rfl (by decide) rfl
  exact ⟨C5_cancellation_checkpoints.1 cfgMidCancel, w1, w2⟩

/-- C6: the number of agent-updated events enqueued equals 1 (the
initial event) plus the number of executed handoff turns; spans are
opened at most once per agent episode (at most one more than the
number of handoffs), every opened span is finished, and each handoff's
span close is accounted for (handoffs never exceed the span
finishes). -/
theorem C6_handoff_span_accounting (cfg : LoopCfg) :
    agentUpdatedCount (streamingLoop cfg).1.log =
        1 + handoffCount cfg (streamingLoop cfg).1.log ∧
      spanStartCount (streamingLoop cfg).1.log ≤
        1 + handoffCount cfg (streamingLoop cfg).1.log ∧
      handoffCount cfg (streamingLoop cfg).1.log ≤
        spanFinishCount (streamingLoop cfg).1.log ∧
      spanFinishCount (streamingLoop cfg).1.log =
        spanStartCount (streamingLoop cfg).1.log := by
  obtain ⟨g1, g2, g3⟩ := streamingLoop_c6 cfg
  obtain ⟨t1, t2, t3, t4, t5, t6, t7, t8⟩ := streamingLoop_master cfg
  exact ⟨g1, g2, by omega, t4.symm⟩

end ReactRunnerModel
